import Mathlib

/-!
# Kernel monitor (`kern/monitor.c`): the `backtrace` command and the interpreter

A shallow embedding of `mon_backtrace`, of the command table with `mon_help`
and `mon_kerninfo`, and of `runcmd` and `monitor`:

* memory is a byte map, read little-endian (x86-64) at 64-bit addresses;
* `uint64_t` variables are naturals, with `% 2 ^ 64` wherever the C arithmetic
  can wrap; `int` fields are integers;
* `debuginfo_rip` (its body lives in `kern/kdebug.c`) is a parameter: it
  receives the address and the current content of the caller's
  `struct Ripdebuginfo` and gives back its return code and the new content;
* the console is the text printed so far; `cprintf` appends to it;
* the `while` loop runs on fuel and reports whether it left the loop;
* a command line is the list of the characters of its C string; function
  pointers of the command table are the names of the handlers;
* `readline` (lib/readline.c) is represented by what each of its calls shows
  and returns.
-/

namespace JOS

set_option maxRecDepth 100000

/-! ## Text, memory, machine words -/

/-- Console text: a sequence of characters. -/
abbrev Text := List Char

/-- Byte-addressed memory; the byte stored at `a` is `mem a % 256`. -/
abbrev Mem := Nat → Nat

/-- One byte at the 64-bit address `a`. -/
def read8 (mem : Mem) (a : Nat) : Nat := mem (a % 2 ^ 64) % 256

/-- The value of `*(uint32_t *)a`: four bytes, little-endian. -/
def read32 (mem : Mem) (a : Nat) : Nat :=
  read8 mem a + 2 ^ 8 * read8 mem (a + 1) + 2 ^ 16 * read8 mem (a + 2)
    + 2 ^ 24 * read8 mem (a + 3)

/-- The value of `*(uint64_t *)a`: eight bytes, little-endian. -/
def read64 (mem : Mem) (a : Nat) : Nat :=
  read32 mem a + 2 ^ 32 * read32 mem (a + 4)

/-- The `uint64_t` subtraction `x - y` of C. -/
def sub64 (x y : Nat) : Nat := (x % 2 ^ 64 + (2 ^ 64 - y % 2 ^ 64)) % 2 ^ 64

/-- The C statement `arg_addr -= s` for a `uint64_t arg_addr` and an `int s`:
the `int` is converted to `uint64_t` and the subtraction wraps. -/
def sub64i (x : Nat) (s : Int) : Nat := (((x : Int) - s) % (2 ^ 64 : Int)).toNat

/-! ## The conversions of `cprintf` used by `mon_backtrace` -/

/-- Modelled from the spec: `cprintf` (lib/printfmt.c) is not part of this file.
The conversion `%016x` is taken to render its argument "as 16-digit hex": the
sixteen hexadecimal digits of the 64-bit value, most significant first. -/
def hex16 (x : Nat) : Text :=
  (List.range 16).reverse.map (fun i => Nat.digitChar (x / 16 ^ i % 16))

/-- Modelled from the spec: `cprintf` (lib/printfmt.c) is not part of this file.
The conversion `%Ns` (`%5s`, `%7s`) right-justifies the string in a field of
`w` characters, padding with spaces on the left (the `<pad>` of the spec). -/
def fmt_s (w : Nat) (s : Text) : Text := List.replicate (w - s.length) ' ' ++ s

/-- Modelled from the spec: `cprintf` (lib/printfmt.c) is not part of this file.
The conversion `%d` renders an `int` in decimal, with a leading `-` when it is
negative. -/
def fmt_d (i : Int) : Text :=
  if i < 0 then '-' :: Nat.toDigits 10 i.natAbs else Nat.toDigits 10 i.natAbs

/-- Modelled from the spec: `cprintf` (lib/printfmt.c) is not part of this file.
The conversion `%.*s` prints the string "with explicit length": at most `prec`
characters of the C string at the pointer (`s` holds the characters up to its
terminator); a negative precision counts as no precision. -/
def fmt_prec_s (prec : Int) (s : Text) : Text :=
  if prec < 0 then s else s.take prec.toNat

/-- The value denoted by a string of hexadecimal digits, most significant
first (used to say which number a printed field stands for). -/
def hexval (t : Text) : Nat :=
  t.foldl (fun acc c =>
    16 * acc + (if c.toNat < 58 then c.toNat - 48 else c.toNat - 87)) 0

/-! ## Data -/

/-- The fields of `struct Ripdebuginfo` (kern/kdebug.h) read by `mon_backtrace`.
`rip_fn_name` holds the characters of the C string at the pointer, which runs
past the end of the name; `size_fn_arg` is the array, read by index without a
bound check. -/
structure Ripdebuginfo where
  rip_file : Text
  rip_line : Int
  rip_fn_name : Text
  rip_fn_namelen : Int
  rip_fn_addr : Nat
  rip_fn_narg : Int
  size_fn_arg : Nat → Int

/-- The resolver `debuginfo_rip(addr, &info)`: from the address and the content
of `info` before the call, the return code and the content after the call. -/
abbrev Resolver := Nat → Ripdebuginfo → Int × Ripdebuginfo

/-- One read of the argument loop: its address, its width in bytes and the
value read (zero-extended to 64 bits). -/
structure ArgRead where
  addr : Nat
  width : Nat
  value : Nat
deriving DecidableEq, Repr

/-- The variables of the `while` loop of `mon_backtrace` at the loop head. -/
structure BtState where
  stack_base_p : Nat
  ret_inst_p : Nat
  rip_debug_info : Ripdebuginfo

/-- What `mon_backtrace` takes from its execution context: the value of
`read_rbp()`, the value stored by `read_rip`, the resolver, and the content of
the uninitialised local `rip_debug_info`. -/
structure BtEnv where
  read_rbp : Nat
  read_rip : Nat
  debuginfo_rip : Resolver
  rip_debug_info : Ripdebuginfo

/-- The kernel state seen by the monitor: memory and the console output. -/
structure Kern where
  mem : Mem
  out : Text

/-- The function `cprintf`, once its format is expanded: append to the console. -/
def cprintf (s : Text) (k : Kern) : Kern := { k with out := k.out ++ s }

/-! ## `mon_backtrace` -/

/-- The `for` loop over the arguments (lines 85-93), with `n` iterations left,
`arg_num` the index and `arg_addr` the cursor: the reads it performs, in order.
Each read is printed as `" %016x"`. -/
def bt_args (mem : Mem) (size_fn_arg : Nat → Int) : Nat → Nat → Nat → List ArgRead
  | 0, _, _ => []
  | n + 1, arg_num, arg_addr =>
    let arg_addr1 := sub64i arg_addr (size_fn_arg arg_num)
    if size_fn_arg arg_num = 4 then
      ⟨arg_addr1, 4, read32 mem arg_addr1⟩ :: bt_args mem size_fn_arg n (arg_num + 1) arg_addr1
    else
      let arg_addr2 := arg_addr1 - arg_addr1 % 8
      ⟨arg_addr2, 8, read64 mem arg_addr2⟩ :: bt_args mem size_fn_arg n (arg_num + 1) arg_addr2

/-- What the argument loop prints: `" %016x"` for each read. -/
def bt_args_text (rs : List ArgRead) : Text :=
  (rs.map (fun r => ' ' :: hex16 r.value)).flatten

/-- The first `cprintf` of the loop body (lines 71-72):
`"%5s %016x%5s %016x\n"` with `"rbp"`, `stack_base_p`, `"rip"`, `ret_inst_p`. -/
def bt_line1 (stack_base_p ret_inst_p : Nat) : Text :=
  fmt_s 5 "rbp".toList ++ " ".toList ++ hex16 stack_base_p
    ++ fmt_s 5 "rip".toList ++ " ".toList ++ hex16 ret_inst_p ++ "\n".toList

/-- The text printed from the resolved debug information before the arguments
(lines 75-81). -/
def bt_sym (ret_inst_p : Nat) (d : Ripdebuginfo) : Text :=
  -- cprintf("%7s%s:%d: ", " ", rip_file, rip_line)
  fmt_s 7 " ".toList ++ d.rip_file ++ ":".toList ++ fmt_d d.rip_line ++ ": ".toList
  -- cprintf("%.*s+", rip_fn_namelen, rip_fn_name)
    ++ fmt_prec_s d.rip_fn_namelen d.rip_fn_name ++ "+".toList
  -- cprintf("%016x", ret_inst_p - rip_fn_addr)
    ++ hex16 (sub64 ret_inst_p d.rip_fn_addr)
  -- cprintf("  args:%d ", rip_fn_narg)
    ++ "  args:".toList ++ fmt_d d.rip_fn_narg ++ " ".toList

/-- The text printed when `debuginfo_rip` returned 0 (lines 75-94): the symbol
fields, the `for` loop over `arg_num < rip_fn_narg`, and `cprintf("\n")`. -/
def bt_line2 (mem : Mem) (stack_base_p ret_inst_p : Nat) (d : Ripdebuginfo) : Text :=
  bt_sym ret_inst_p d
    ++ bt_args_text (bt_args mem d.size_fn_arg d.rip_fn_narg.toNat 0 stack_base_p)
    ++ "\n".toList

/-- One iteration of the `while` loop (lines 71-97): the text it prints and the
loop variables after it. -/
def bt_body (mem : Mem) (dbg : Resolver) (s : BtState) : Text × BtState :=
  let res := dbg s.ret_inst_p s.rip_debug_info
  let text :=
    if res.1 = 0 then
      bt_line1 s.stack_base_p s.ret_inst_p ++ bt_line2 mem s.stack_base_p s.ret_inst_p res.2
    else
      bt_line1 s.stack_base_p s.ret_inst_p
  (text,
    { ret_inst_p := read64 mem (s.stack_base_p + 8)
      stack_base_p := read64 mem s.stack_base_p
      rip_debug_info := res.2 })

/-- The `while (stack_base_p != 0)` loop, for at most `fuel` iterations: the
loop-head states of the iterations that ran (one per emitted frame), and
whether the loop condition became false. -/
def bt_loop (mem : Mem) (dbg : Resolver) : Nat → BtState → List BtState × Bool
  | 0, s => ([], decide (s.stack_base_p = 0))
  | fuel + 1, s =>
    if s.stack_base_p = 0 then ([], true)
    else
      let r := bt_loop mem dbg fuel (bt_body mem dbg s).2
      (s :: r.1, r.2)

/-- The text printed by the iterations of a trace, in order. -/
def bt_text (mem : Mem) (dbg : Resolver) (tr : List BtState) : Text :=
  (tr.map (fun s => (bt_body mem dbg s).1)).flatten

/-- The state of the loop when `mon_backtrace` enters it (lines 66-69). -/
def bt_init (env : BtEnv) : BtState :=
  { stack_base_p := env.read_rbp
    ret_inst_p := env.read_rip
    rip_debug_info := env.rip_debug_info }

/-- The function `mon_backtrace`: prints the header, runs the loop and returns
0; `none` when the loop did not finish within `fuel` iterations. -/
def mon_backtrace (fuel : Nat) (env : BtEnv) (k : Kern) : Option (Int × Kern) :=
  let k1 := cprintf "Stack backtrace:\n".toList k
  let r := bt_loop k1.mem env.debuginfo_rip fuel (bt_init env)
  if r.2 then some (0, cprintf (bt_text k1.mem env.debuginfo_rip r.1) k1) else none

/-! ## The Argument Extractor and the symbol line, as the specification words them -/

/-- Rounding an address down to the nearest multiple of 8. -/
def floor8 (a : Nat) : Nat := a / 8 * 8

/-- The cursor of the Argument Extractor after `i` arguments, for the frame
base `F` and the argument sizes `sizes 0, sizes 1, ...`: it starts at `F`; each
argument decrements it by its size (in 64-bit address arithmetic) and, when the
size is not 4, the cursor is rounded down to a multiple of 8 and carried
forward rounded. -/
def spec_cursor (sizes : Nat → Int) (F : Nat) : Nat → Nat
  | 0 => F
  | i + 1 =>
    if sizes i = 4 then sub64i (spec_cursor sizes F i) (sizes i)
    else floor8 (sub64i (spec_cursor sizes F i) (sizes i))

/-- The read the Argument Extractor makes for argument `i`: 4 bytes at the
cursor when the size is 4, 8 bytes otherwise. -/
def spec_arg (mem : Mem) (sizes : Nat → Int) (F : Nat) (i : Nat) : ArgRead :=
  if sizes i = 4 then
    ⟨spec_cursor sizes F (i + 1), 4, read32 mem (spec_cursor sizes F (i + 1))⟩
  else
    ⟨spec_cursor sizes F (i + 1), 8, read64 mem (spec_cursor sizes F (i + 1))⟩

/-- The second line in the wording "file, `:`, line, `: `, name, `+`, offset,
two spaces, `args:`, count, one space, the argument values separated by
spaces, newline": nothing before the file name, single spaces between the
values. -/
def worded_line2 (d : Ripdebuginfo) (ret_inst_p : Nat) (vals : List Nat) : Text :=
  d.rip_file ++ ":".toList ++ fmt_d d.rip_line ++ ": ".toList
    ++ d.rip_fn_name.take d.rip_fn_namelen.toNat ++ "+".toList
    ++ hex16 (sub64 ret_inst_p d.rip_fn_addr)
    ++ "  args:".toList ++ fmt_d d.rip_fn_narg ++ " ".toList
    ++ List.intercalate " ".toList (vals.map hex16) ++ "\n".toList

/-- Number of line terminators in a text. -/
def newlines (t : Text) : Nat := t.count '\n'

/-! ## Concrete machines -/

/-- Memory `mem` with the 64-bit word `v` stored little-endian at `a`. -/
def store64 (mem : Mem) (a v : Nat) : Mem :=
  fun x => if a ≤ x ∧ x < a + 8 then v / 256 ^ (x - a) % 256 else mem x

/-- Debug information of a function `foo` of `a.c` with one 4-byte argument;
the name pointer runs on into the symbol string. -/
def demo_foo : Ripdebuginfo :=
  { rip_file := "a.c".toList, rip_line := 10, rip_fn_name := "foo:F(0,1)".toList,
    rip_fn_namelen := 3, rip_fn_addr := 0x1200, rip_fn_narg := 1,
    size_fn_arg := fun _ => 4 }

/-- A resolver that knows one address, `0x1234`, inside `foo`. -/
def demo_resolver : Resolver := fun addr d =>
  if addr = 0x1234 then (0, demo_foo) else (-1, d)

/-- The argument sizes 4, 8, 4 (and 0 past the end). -/
def demo_sizes : Nat → Int := fun i => [4, 8, 4].getD i 0

/-- Argument sizes outside of 4 and 8: 0, 1, 2, 16 (and 8 past the end). -/
def odd_sizes : Nat → Int := fun i => [0, 1, 2, 16].getD i 8

/-- Some content for the uninitialised `rip_debug_info`. -/
def demo_info : Ripdebuginfo :=
  { rip_file := [], rip_line := 0, rip_fn_name := [], rip_fn_namelen := 0,
    rip_fn_addr := 0, rip_fn_narg := 0, size_fn_arg := fun _ => 0 }

/-- A stack of two frames: the frame at `0x1000` saves the frame base `0x2000`
and the return address `0x5678`; the frame at `0x2000` saves 0. The 4-byte
argument of the first frame, below `0x1000`, is `0xdeadbeef`. -/
def demo_mem : Mem :=
  store64 (store64 (store64 (fun _ => 0) 0xff8 0xdeadbeef00000000) 0x1000 0x2000) 0x1008 0x5678

/-- The execution context of a `backtrace` on `demo_mem`. -/
def demo_env : BtEnv :=
  { read_rbp := 0x1000, read_rip := 0x1234, debuginfo_rip := demo_resolver,
    rip_debug_info := demo_info }

/-- The loop-head state of the first frame of `demo_env`. -/
def demo_state : BtState := bt_init demo_env

/-- A corrupted stack: the frame at `0x1000` saves its own address. -/
def cyclic_mem : Mem := store64 (fun _ => 0) 0x1000 0x1000

/-- The execution context of a `backtrace` on `cyclic_mem`. -/
def cyclic_env : BtEnv :=
  { read_rbp := 0x1000, read_rip := 0x1234, debuginfo_rip := demo_resolver,
    rip_debug_info := demo_info }

/-! ## The command table, `mon_help`, `mon_kerninfo` -/

/-- Modelled from the spec: `cprintf` (lib/printfmt.c) is not part of this file.
The conversion `%08x` is taken, like `%016x`, to render the value in
hexadecimal, here padded with zeros on the left to at least 8 digits. -/
def fmt_08x (x : Nat) : Text :=
  List.replicate (8 - (Nat.toDigits 16 (x % 2 ^ 64)).length) '0' ++ Nat.toDigits 16 (x % 2 ^ 64)

/-- The function pointers stored in the command table: one name per handler. -/
inductive Handler where
  | mon_help
  | mon_kerninfo
  | mon_backtrace
deriving DecidableEq, Repr

/-- The `struct Command` of lines 19-24. -/
structure Command where
  name : Text
  desc : Text
  func : Handler
deriving DecidableEq

/-- The table `commands` of lines 26-30. -/
def commands : List Command :=
  [ { name := "help".toList, desc := "Display this list of commands".toList,
      func := Handler.mon_help },
    { name := "kerninfo".toList, desc := "Display information about the kernel".toList,
      func := Handler.mon_kerninfo },
    { name := "backtrace".toList, desc := "Display a listing of function call frames".toList,
      func := Handler.mon_backtrace } ]

/-- The macro `NCOMMANDS`: the number of entries of the table. -/
def NCOMMANDS : Nat := commands.length

/-- The loop of `mon_help` (lines 40-41) over the entries still to print:
`cprintf("%s - %s\n", name, desc)` for each. -/
def mon_help_loop : List Command → Kern → Kern
  | [], k => k
  | c :: cs, k =>
    mon_help_loop cs (cprintf (c.name ++ " - ".toList ++ c.desc ++ "\n".toList) k)

/-- The function `mon_help`; its arguments `argc`, `argv`, `tf` are not used. -/
def mon_help (k : Kern) : Int × Kern := (0, mon_help_loop commands k)

/-- What `mon_kerninfo` takes from other files: the addresses of the linker
symbols `_start`, `entry`, `etext`, `edata`, `end`, the constant `KERNBASE`
(inc/memlayout.h) and the macro `ROUNDUP` (inc/types.h). -/
structure KernLayout where
  _start : Nat
  entry : Nat
  etext : Nat
  edata : Nat
  end_ : Nat
  KERNBASE : Nat
  ROUNDUP : Int → Int → Int

/-- The function `mon_kerninfo` (lines 45-59); its arguments are not used. -/
def mon_kerninfo (L : KernLayout) (k : Kern) : Int × Kern :=
  let k := cprintf "Special kernel symbols:\n".toList k
  let k := cprintf ("  _start                  ".toList ++ fmt_08x L._start
    ++ " (phys)\n".toList) k
  let k := cprintf ("  entry  ".toList ++ fmt_08x L.entry ++ " (virt)  ".toList
    ++ fmt_08x (sub64 L.entry L.KERNBASE) ++ " (phys)\n".toList) k
  let k := cprintf ("  etext  ".toList ++ fmt_08x L.etext ++ " (virt)  ".toList
    ++ fmt_08x (sub64 L.etext L.KERNBASE) ++ " (phys)\n".toList) k
  let k := cprintf ("  edata  ".toList ++ fmt_08x L.edata ++ " (virt)  ".toList
    ++ fmt_08x (sub64 L.edata L.KERNBASE) ++ " (phys)\n".toList) k
  let k := cprintf ("  end    ".toList ++ fmt_08x L.end_ ++ " (virt)  ".toList
    ++ fmt_08x (sub64 L.end_ L.KERNBASE) ++ " (phys)\n".toList) k
  let k := cprintf ("Kernel executable memory footprint: ".toList
    ++ fmt_d (Int.tdiv (L.ROUNDUP ((L.end_ : Int) - (L.entry : Int)) 1024) 1024)
    ++ "KB\n".toList) k
  (0, k)

/-- The execution context of the monitor: that of `mon_backtrace` and that of
`mon_kerninfo`. -/
structure MonEnv where
  bt : BtEnv
  layout : KernLayout

/-- The call `commands[i].func(argc, argv, tf)` through the function pointer
`h`. None of the three handlers reads `argc`, `argv` or `tf`. -/
def call (h : Handler) (fuel : Nat) (env : MonEnv) (_argc : Int) (_argv : List Text)
    (_tf : Nat) (k : Kern) : Option (Int × Kern) :=
  match h with
  | Handler.mon_help => some (mon_help k)
  | Handler.mon_kerninfo => some (mon_kerninfo env.layout k)
  | Handler.mon_backtrace => mon_backtrace fuel env.bt k

/-! ## `runcmd` and `monitor` -/

/-- The string terminator. -/
def NUL : Char := Char.ofNat 0

/-- The macro `WHITESPACE`. -/
def WHITESPACE : Text := "\t\r\n ".toList

/-- The macro `MAXARGS`. -/
def MAXARGS : Nat := 16

/-- Whether `strchr(s, c)` is non-null: `c` occurs in `s`, or is its terminator. -/
def strchr (s : Text) (c : Char) : Bool := decide (c = NUL ∨ c ∈ s)

/-- The loop `while (*buf && strchr(WHITESPACE, *buf)) *buf++ = 0;` (lines
121-122): the buffer from the position where it stops. The end of the list is
the terminator of the C string. -/
def gobble : Text → Text
  | [] => []
  | c :: cs => if c ≠ NUL ∧ strchr WHITESPACE c = true then gobble cs else c :: cs

/-- The loop `while (*buf && !strchr(WHITESPACE, *buf)) buf++;` (lines 132-133):
the characters passed over, which are the argument once the whitespace after
them is overwritten with terminators, and the buffer from where it stops. -/
def scan : Text → Text × Text
  | [] => ([], [])
  | c :: cs =>
    if c ≠ NUL ∧ strchr WHITESPACE c = false then ((c :: (scan cs).1), (scan cs).2)
    else ([], c :: cs)

/-- How the parsing loop of `runcmd` ends: with `argv` filled, at the
"Too many arguments" return, or not within the fuel given. -/
inductive Parsed where
  | args (argv : List Text)
  | too_many
  | out_of_fuel
deriving DecidableEq, Repr

/-- The loop `while (1)` of lines 119-134, for at most `fuel` iterations, from
the buffer position `buf` with the arguments `argv` saved so far (`argc` is
their number). -/
def parse_args : Nat → Text → List Text → Parsed
  | 0, _, _ => Parsed.out_of_fuel
  | fuel + 1, buf, argv =>
    match gobble buf with
    | [] => Parsed.args argv
    | c :: cs =>
      if c = NUL then Parsed.args argv
      else if argv.length = MAXARGS - 1 then Parsed.too_many
      else parse_args fuel (scan (c :: cs)).2 (argv ++ [(scan (c :: cs)).1])

/-- The loop of lines 140-143 over the entries still to compare: the first
entry whose name `strcmp` finds equal to `arg0`. -/
def find_command (arg0 : Text) : List Command → Option Command
  | [] => none
  | c :: cs => if arg0 = c.name then some c else find_command arg0 cs

/-- The lookup and the call of lines 137-145, with the arguments `argv` that
were parsed (`argc` is their number). -/
def lookup_invoke (fuel : Nat) (env : MonEnv) (argv : List Text) (tf : Nat) (k : Kern) :
    Option (Int × Kern) :=
  match argv with
  | [] => some (0, k)
  | arg0 :: rest =>
    match find_command arg0 commands with
    | some c => call c.func fuel env ((arg0 :: rest).length : Nat) (arg0 :: rest) tf k
    | none => some (0, cprintf ("Unknown command '".toList ++ arg0 ++ "'\n".toList) k)

/-- The function `runcmd` (lines 109-146) on the line `buf`. Every iteration of
the parsing loop passes at least one character, so `buf.length + 1` iterations
are enough; `none` when a handler does not return within `fuel`. -/
def runcmd (fuel : Nat) (env : MonEnv) (buf : Text) (tf : Nat) (k : Kern) :
    Option (Int × Kern) :=
  match parse_args (buf.length + 1) buf [] with
  | Parsed.out_of_fuel => none
  | Parsed.too_many =>
    some (0, cprintf ("Too many arguments (max ".toList ++ fmt_d MAXARGS ++ ")\n".toList) k)
  | Parsed.args argv => lookup_invoke fuel env argv tf k

/-- One call `readline("K> ")` (lib/readline.c is not part of this file): the
text it puts on the console, prompt and echo, and the buffer it returns,
`none` for `NULL`. -/
structure ReadLine where
  shown : Text
  buf : Option Text

/-- The loop `while (1)` of `monitor` (lines 157-162) over the calls of
`readline` still to come: `some (true, k)` when the `break` is taken,
`some (false, k)` when all the lines are consumed and the loop is still
running, `none` when a handler does not return within `fuel`. -/
def monitor_loop (fuel : Nat) (env : MonEnv) (tf : Nat) : List ReadLine → Kern →
    Option (Bool × Kern)
  | [], k => some (false, k)
  | rl :: rest, k =>
    match rl.buf with
    | none => monitor_loop fuel env tf rest (cprintf rl.shown k)
    | some buf =>
      match runcmd fuel env buf tf (cprintf rl.shown k) with
      | none => none
      | some (r, k2) => if r < 0 then some (true, k2) else monitor_loop fuel env tf rest k2

/-- The function `monitor` (lines 148-163) on the lines `inputs`. -/
def monitor (fuel : Nat) (env : MonEnv) (tf : Nat) (inputs : List ReadLine) (k : Kern) :
    Option (Bool × Kern) :=
  let k := cprintf "Welcome to the JOS kernel monitor!\n".toList k
  let k := cprintf "Type 'help' for a list of commands.\n".toList k
  monitor_loop fuel env tf inputs k

/-! ## Command lines, as made of tokens and whitespace -/

/-- A kernel layout for the examples. -/
def demo_layout : KernLayout :=
  { _start := 0x100000, entry := 0x8004200000, etext := 0x8004205000,
    edata := 0x8004210000, end_ := 0x8004216000, KERNBASE := 0x8004000000,
    ROUNDUP := fun a n => (a + n - 1) / n * n }

/-- The monitor context of the examples. -/
def demo_menv : MonEnv := { bt := demo_env, layout := demo_layout }

/-- Four calls of `readline`: `help`, a `NULL` return, an unknown command and
`backtrace`. -/
def demo_inputs : List ReadLine :=
  [ { shown := "K> help\n".toList, buf := some "help".toList },
    { shown := "K> ".toList, buf := none },
    { shown := "K> exit now\n".toList, buf := some "exit now".toList },
    { shown := "K> backtrace\n".toList, buf := some "backtrace".toList } ]

/-- Memory with three distinct argument values below the frame base `0x1000`:
`0xaaaaaaaa` in the 4 bytes at `0xffc`, `0xbbbbbbbbcccccccc` in the 8 bytes at
`0xff0`, `0xdddddddd` in the 4 bytes at `0xfec`. -/
def args_mem : Mem :=
  store64 (store64 (store64 (fun _ => 0) 0xff8 0xaaaaaaaa00000000) 0xff0 0xbbbbbbbbcccccccc)
    0xfe8 0xdddddddd00000000

/-- Debug information of a function `bar` of `b.c` with three arguments of
sizes 4, 8, 4. -/
def args_info : Ripdebuginfo :=
  { rip_file := "b.c".toList, rip_line := 21, rip_fn_name := "bar".toList,
    rip_fn_namelen := 3, rip_fn_addr := 0x1200, rip_fn_narg := 3,
    size_fn_arg := demo_sizes }

/-- A resolver that resolves every address to `bar`. -/
def args_resolver : Resolver := fun _ _ => (0, args_info)

/-- A frame of `bar` at frame base `0x1000`. -/
def args_state : BtState :=
  { stack_base_p := 0x1000, ret_inst_p := 0x1234, rip_debug_info := demo_info }

/-- Debug information of a function `two` of `w.c` with two 4-byte arguments. -/
def wrap_info : Ripdebuginfo :=
  { rip_file := "w.c".toList, rip_line := 7, rip_fn_name := "two".toList,
    rip_fn_namelen := 3, rip_fn_addr := 0x1200, rip_fn_narg := 2,
    size_fn_arg := fun _ => 4 }

/-- A resolver that resolves every address to `two`. -/
def wrap_resolver : Resolver := fun _ _ => (0, wrap_info)

/-- A frame of `two` whose saved frame base is 4. -/
def wrap_state : BtState :=
  { stack_base_p := 4, ret_inst_p := 0x1234, rip_debug_info := demo_info }

/-! ## Lemmas on the conversions -/

theorem hex16_length (x : Nat) : (hex16 x).length = 16 := by
  simp [hex16]

theorem hexdigit_value : ∀ d, d < 16 →
    (if (Nat.digitChar d).toNat < 58 then (Nat.digitChar d).toNat - 48
      else (Nat.digitChar d).toNat - 87) = d := by
  decide

theorem hexval_digits (x : Nat) : ∀ n acc,
    List.foldl (fun acc c =>
      16 * acc + (if c.toNat < 58 then c.toNat - 48 else c.toNat - 87)) acc
      ((List.range n).reverse.map (fun i => Nat.digitChar (x / 16 ^ i % 16)))
      = acc * 16 ^ n + x % 16 ^ n := by
  intro n
  induction n with
  | zero => intro acc; simp [Nat.mod_one]
  | succ n ih =>
    intro acc
    rw [List.range_succ, List.reverse_append]
    simp only [List.reverse_cons, List.reverse_nil, List.nil_append, List.singleton_append,
      List.map_cons, List.foldl_cons]
    rw [ih, hexdigit_value _ (Nat.mod_lt _ (by norm_num)), Nat.mod_pow_succ]
    ring

theorem hexval_hex16 (x : Nat) : hexval (hex16 x) = x % 2 ^ 64 := by
  unfold hexval hex16
  rw [hexval_digits x 16 0]
  norm_num

theorem digitChar_small : ∀ d, d < 16 → Nat.digitChar d ≠ '\n' := by decide

theorem digitChar_large (d : Nat) (h : 16 ≤ d) : Nat.digitChar d = '*' := by
  unfold Nat.digitChar
  rw [if_neg (show ¬ d = 0 by omega), if_neg (show ¬ d = 1 by omega),
    if_neg (show ¬ d = 2 by omega), if_neg (show ¬ d = 3 by omega),
    if_neg (show ¬ d = 4 by omega), if_neg (show ¬ d = 5 by omega),
    if_neg (show ¬ d = 6 by omega), if_neg (show ¬ d = 7 by omega),
    if_neg (show ¬ d = 8 by omega), if_neg (show ¬ d = 9 by omega),
    if_neg (show ¬ d = 10 by omega), if_neg (show ¬ d = 11 by omega),
    if_neg (show ¬ d = 12 by omega), if_neg (show ¬ d = 13 by omega),
    if_neg (show ¬ d = 14 by omega), if_neg (show ¬ d = 15 by omega)]

theorem digitChar_ne_newline (d : Nat) : Nat.digitChar d ≠ '\n' := by
  by_cases h : d < 16
  · exact digitChar_small d h
  · rw [digitChar_large d (by omega)]; decide

theorem hex16_no_newline (x : Nat) : '\n' ∉ hex16 x := by
  simp [hex16, digitChar_ne_newline]

theorem toDigitsCore_no_newline : ∀ (fuel n : Nat) (acc : List Char),
    '\n' ∉ acc → '\n' ∉ Nat.toDigitsCore 10 fuel n acc := by
  intro fuel
  induction fuel with
  | zero => intro n acc h; simpa [Nat.toDigitsCore] using h
  | succ f ih =>
    intro n acc h
    unfold Nat.toDigitsCore
    have h2 : '\n' ∉ Nat.digitChar (n % 10) :: acc := by
      simp only [List.mem_cons, not_or]
      exact ⟨fun e => digitChar_ne_newline _ e.symm, h⟩
    dsimp only
    split_ifs
    · exact h2
    · exact ih _ _ h2

theorem fmt_d_no_newline (i : Int) : '\n' ∉ fmt_d i := by
  unfold fmt_d Nat.toDigits
  split_ifs
  · simp only [List.mem_cons, not_or]
    exact ⟨by decide, toDigitsCore_no_newline _ _ _ (by simp)⟩
  · exact toDigitsCore_no_newline _ _ _ (by simp)

/-! ## Lemmas on the 64-bit arithmetic -/

theorem sub64_exact (r a : Nat) (hle : a ≤ r) (hr : r < 2 ^ 64) : sub64 r a = r - a := by
  unfold sub64
  have ha : a < 2 ^ 64 := lt_of_le_of_lt hle hr
  rw [Nat.mod_eq_of_lt hr, Nat.mod_eq_of_lt ha]
  have : r + (2 ^ 64 - a) = (r - a) + 2 ^ 64 := by omega
  rw [this, Nat.add_mod_right, Nat.mod_eq_of_lt (by omega)]

theorem sub64i_exact (c : Nat) (s : Int) (h0 : 0 ≤ s) (hle : s ≤ c) (hc : c < 2 ^ 64) :
    sub64i c s = c - s.toNat := by
  unfold sub64i
  have h1 : (0 : Int) ≤ (c : Int) - s := by omega
  have h2 : (c : Int) - s < 2 ^ 64 := by
    have : (c : Int) < 2 ^ 64 := by exact_mod_cast hc
    omega
  rw [Int.emod_eq_of_lt h1 h2]
  omega

theorem sub64i_lt (c : Nat) (s : Int) : sub64i c s < 2 ^ 64 := by
  unfold sub64i
  have h := Int.emod_lt_of_pos ((c : Int) - s) (show (0 : Int) < 2 ^ 64 by norm_num)
  have h0 := Int.emod_nonneg ((c : Int) - s) (show (2 ^ 64 : Int) ≠ 0 by norm_num)
  omega

theorem floor8_eq (a : Nat) : a - a % 8 = floor8 a := by
  unfold floor8
  omega

/-! ## Lemmas on the argument loop -/

theorem read8_lt (mem : Mem) (a : Nat) : read8 mem a < 256 :=
  Nat.mod_lt _ (by norm_num)

theorem read32_lt (mem : Mem) (a : Nat) : read32 mem a < 2 ^ 32 := by
  unfold read32
  have h0 := read8_lt mem a
  have h1 := read8_lt mem (a + 1)
  have h2 := read8_lt mem (a + 2)
  have h3 := read8_lt mem (a + 3)
  omega

theorem read64_lt (mem : Mem) (a : Nat) : read64 mem a < 2 ^ 64 := by
  unfold read64
  have h0 := read32_lt mem a
  have h1 := read32_lt mem (a + 4)
  omega

theorem bt_args_step (mem : Mem) (sizes : Nat → Int) (F : Nat) (n i : Nat) :
    bt_args mem sizes (n + 1) i (spec_cursor sizes F i)
      = spec_arg mem sizes F i :: bt_args mem sizes n (i + 1) (spec_cursor sizes F (i + 1)) := by
  by_cases h : sizes i = 4
  · simp [bt_args, spec_arg, spec_cursor, h]
  · simp [bt_args, spec_arg, spec_cursor, h, floor8_eq]

theorem bt_args_from (mem : Mem) (sizes : Nat → Int) (F : Nat) : ∀ n i,
    bt_args mem sizes n i (spec_cursor sizes F i)
      = (List.range n).map (fun j => spec_arg mem sizes F (i + j)) := by
  intro n
  induction n with
  | zero => intro i; simp [bt_args]
  | succ n ih =>
    intro i
    rw [bt_args_step, ih (i + 1), List.range_succ_eq_map, List.map_cons, List.map_map]
    congr 1
    apply List.map_congr_left
    intro j _
    simp only [Function.comp, Nat.succ_eq_add_one]
    congr 1
    omega

theorem bt_args_eq (mem : Mem) (sizes : Nat → Int) (F n : Nat) :
    bt_args mem sizes n 0 F = (List.range n).map (spec_arg mem sizes F) := by
  have h := bt_args_from mem sizes F n 0
  simpa [spec_cursor] using h

theorem bt_args_length (mem : Mem) (sizes : Nat → Int) : ∀ n i a,
    (bt_args mem sizes n i a).length = n := by
  intro n
  induction n with
  | zero => intro i a; simp [bt_args]
  | succ n ih =>
    intro i a
    unfold bt_args
    split_ifs <;> simp [ih]

theorem bt_args_text_length : ∀ rs : List ArgRead,
    (bt_args_text rs).length = 17 * rs.length := by
  intro rs
  induction rs with
  | nil => simp [bt_args_text]
  | cons r rs ih =>
    have h : bt_args_text (r :: rs) = (' ' :: hex16 r.value) ++ bt_args_text rs := by
      simp [bt_args_text]
    rw [h, List.length_append, ih, List.length_cons, hex16_length, List.length_cons]
    omega

theorem spec_cursor_lt (sizes : Nat → Int) (F : Nat) (hF : F < 2 ^ 64) :
    ∀ i, spec_cursor sizes F i < 2 ^ 64 := by
  intro i
  cases i with
  | zero => simpa [spec_cursor] using hF
  | succ i =>
    unfold spec_cursor
    have h := sub64i_lt (spec_cursor sizes F i) (sizes i)
    split_ifs
    · exact h
    · unfold floor8; omega

/-! ## Lemmas on the loop body -/

theorem fmt_s_rbp : fmt_s 5 "rbp".toList ++ " ".toList = "  rbp ".toList := by decide

theorem fmt_s_rip : fmt_s 5 "rip".toList ++ " ".toList = "  rip ".toList := by decide

theorem fmt_s_pad7 : fmt_s 7 " ".toList = "       ".toList := by decide

theorem bt_line1_eq (b r : Nat) :
    bt_line1 b r = "  rbp ".toList ++ hex16 b ++ ("  rip ".toList ++ hex16 r ++ "\n".toList) := by
  unfold bt_line1
  rw [fmt_s_rbp]
  simp only [List.append_assoc]
  rw [← List.append_assoc (fmt_s 5 "rip".toList), fmt_s_rip]

theorem bt_body_resolved (mem : Mem) (dbg : Resolver) (s : BtState)
    (h : (dbg s.ret_inst_p s.rip_debug_info).1 = 0) :
    (bt_body mem dbg s).1 = bt_line1 s.stack_base_p s.ret_inst_p
      ++ bt_line2 mem s.stack_base_p s.ret_inst_p (dbg s.ret_inst_p s.rip_debug_info).2 := by
  simp [bt_body, h]

theorem bt_body_unresolved (mem : Mem) (dbg : Resolver) (s : BtState)
    (h : (dbg s.ret_inst_p s.rip_debug_info).1 ≠ 0) :
    (bt_body mem dbg s).1 = bt_line1 s.stack_base_p s.ret_inst_p := by
  simp [bt_body, h]

theorem bt_body_next (mem : Mem) (dbg : Resolver) (s : BtState) :
    (bt_body mem dbg s).2.stack_base_p = read64 mem s.stack_base_p
      ∧ (bt_body mem dbg s).2.ret_inst_p = read64 mem (s.stack_base_p + 8) := by
  simp [bt_body]

theorem bt_body_text (mem : Mem) (dbg : Resolver) (s : BtState) :
    (bt_body mem dbg s).1
      = "  rbp ".toList ++ hex16 s.stack_base_p ++ "  rip ".toList ++ hex16 s.ret_inst_p
          ++ "\n".toList
          ++ (if (dbg s.ret_inst_p s.rip_debug_info).1 = 0
              then bt_line2 mem s.stack_base_p s.ret_inst_p (dbg s.ret_inst_p s.rip_debug_info).2
              else []) := by
  by_cases h : (dbg s.ret_inst_p s.rip_debug_info).1 = 0
  · rw [bt_body_resolved mem dbg s h, if_pos h, bt_line1_eq]
    simp only [List.append_assoc]
  · rw [bt_body_unresolved mem dbg s h, if_neg h, bt_line1_eq]
    simp only [List.append_assoc, List.append_nil]

theorem newlines_append (a b : Text) : newlines (a ++ b) = newlines a + newlines b := by
  simp [newlines]

theorem newlines_of_not_mem (a : Text) (h : '\n' ∉ a) : newlines a = 0 := by
  unfold newlines
  exact List.count_eq_zero.mpr h

theorem newlines_line1 (b r : Nat) : newlines (bt_line1 b r) = 1 := by
  rw [bt_line1_eq]
  simp only [newlines_append, newlines_of_not_mem _ (hex16_no_newline _)]
  decide

theorem newlines_args_text : ∀ rs : List ArgRead, newlines (bt_args_text rs) = 0 := by
  intro rs
  induction rs with
  | nil => simp [bt_args_text, newlines]
  | cons r rs ih =>
    have h : bt_args_text (r :: rs) = (' ' :: hex16 r.value) ++ bt_args_text rs := by
      simp [bt_args_text]
    rw [h, newlines_append, ih]
    have h2 : '\n' ∉ ' ' :: hex16 r.value := by
      simp only [List.mem_cons, not_or]
      exact ⟨by decide, hex16_no_newline _⟩
    rw [newlines_of_not_mem _ h2]

theorem newlines_line2 (mem : Mem) (b r : Nat) (d : Ripdebuginfo)
    (hfile : '\n' ∉ d.rip_file)
    (hname : '\n' ∉ fmt_prec_s d.rip_fn_namelen d.rip_fn_name) :
    newlines (bt_line2 mem b r d) = 1 := by
  unfold bt_line2 bt_sym
  simp only [newlines_append, newlines_args_text, newlines_of_not_mem _ hfile,
    newlines_of_not_mem _ hname, newlines_of_not_mem _ (hex16_no_newline _),
    newlines_of_not_mem _ (fmt_d_no_newline _)]
  decide

/-! ## Lemmas on the loop -/

theorem bt_loop_zero (mem : Mem) (dbg : Resolver) (fuel : Nat) (s : BtState)
    (h : s.stack_base_p = 0) : bt_loop mem dbg fuel s = ([], true) := by
  cases fuel with
  | zero => simp [bt_loop, h]
  | succ f => simp [bt_loop, h]

theorem bt_loop_succ (mem : Mem) (dbg : Resolver) (fuel : Nat) (s : BtState)
    (h : s.stack_base_p ≠ 0) :
    bt_loop mem dbg (fuel + 1) s
      = (s :: (bt_loop mem dbg fuel (bt_body mem dbg s).2).1,
          (bt_loop mem dbg fuel (bt_body mem dbg s).2).2) := by
  simp [bt_loop, h]

theorem bt_loop_chain (mem : Mem) (dbg : Resolver) : ∀ (Bs : List Nat) (s : BtState) (fuel : Nat),
    s.stack_base_p = Bs.getD 0 0 →
    (∀ i, i < Bs.length → Bs.getD i 0 ≠ 0) →
    (∀ i, i < Bs.length → read64 mem (Bs.getD i 0) = Bs.getD (i + 1) 0) →
    Bs.length ≤ fuel →
    ∃ tr, bt_loop mem dbg fuel s = (tr, true) ∧ tr.map BtState.stack_base_p = Bs := by
  intro Bs
  induction Bs with
  | nil =>
    intro s fuel hs _ _ _
    exact ⟨[], bt_loop_zero mem dbg fuel s (by simpa using hs), rfl⟩
  | cons B rest ih =>
    intro s fuel hs hnz hlink hfuel
    have hsB : s.stack_base_p = B := by simpa using hs
    have hB : B ≠ 0 := by simpa using hnz 0 (by simp)
    obtain ⟨f, rfl⟩ : ∃ f, fuel = f + 1 := ⟨fuel - 1, by simp at hfuel; omega⟩
    have hnext : (bt_body mem dbg s).2.stack_base_p = rest.getD 0 0 := by
      rw [(bt_body_next mem dbg s).1, hsB]
      simpa using hlink 0 (by simp)
    obtain ⟨tr, htr, hmap⟩ := ih (bt_body mem dbg s).2 f hnext
      (fun i hi => by simpa using hnz (i + 1) (by simpa using hi))
      (fun i hi => by simpa using hlink (i + 1) (by simpa using hi))
      (by simp at hfuel; omega)
    refine ⟨s :: tr, ?_, by simp [hmap, hsB]⟩
    rw [bt_loop_succ mem dbg f s (by rw [hsB]; exact hB), htr]

theorem bt_loop_head (mem : Mem) (dbg : Resolver) (fuel : Nat) (s a : BtState)
    (h : (bt_loop mem dbg fuel s).1[0]? = some a) : a = s := by
  cases fuel with
  | zero => simp [bt_loop] at h
  | succ f =>
    by_cases hz : s.stack_base_p = 0
    · simp [bt_loop, hz] at h
    · rw [bt_loop_succ mem dbg f s hz] at h
      simpa using h.symm

theorem bt_loop_link (mem : Mem) (dbg : Resolver) : ∀ (fuel : Nat) (s : BtState) (i : Nat)
    (a b : BtState),
    (bt_loop mem dbg fuel s).1[i]? = some a →
    (bt_loop mem dbg fuel s).1[i + 1]? = some b →
    b = (bt_body mem dbg a).2 := by
  intro fuel
  induction fuel with
  | zero => intro s i a b h; simp [bt_loop] at h
  | succ f ih =>
    intro s i a b ha hb
    by_cases hz : s.stack_base_p = 0
    · simp [bt_loop, hz] at ha
    · rw [bt_loop_succ mem dbg f s hz] at ha hb
      cases i with
      | zero =>
        have hs : s = a := by simpa using ha
        rw [← hs]
        exact bt_loop_head mem dbg f _ b (by simpa using hb)
      | succ i =>
        exact ih _ i a b (by simpa using ha) (by simpa using hb)

theorem bt_loop_done_iff (mem : Mem) (dbg : Resolver) : ∀ (fuel : Nat) (s : BtState),
    (bt_loop mem dbg fuel s).2 = true
      ↔ ∃ n, n ≤ fuel ∧ (read64 mem)^[n] s.stack_base_p = 0 := by
  intro fuel
  induction fuel with
  | zero =>
    intro s
    simp [bt_loop]
  | succ f ih =>
    intro s
    by_cases hz : s.stack_base_p = 0
    · rw [bt_loop_zero mem dbg _ s hz]
      exact ⟨fun _ => ⟨0, by omega, by simpa using hz⟩, fun _ => rfl⟩
    · rw [bt_loop_succ mem dbg f s hz]
      simp only
      rw [ih, (bt_body_next mem dbg s).1]
      constructor
      · rintro ⟨n, hn, h⟩
        exact ⟨n + 1, by omega, by simpa [Function.iterate_succ_apply] using h⟩
      · rintro ⟨n, hn, h⟩
        cases n with
        | zero => exact absurd (by simpa using h) hz
        | succ n => exact ⟨n, by omega, by simpa [Function.iterate_succ_apply] using h⟩

theorem bt_loop_length (mem : Mem) (dbg : Resolver) : ∀ (fuel : Nat) (s : BtState),
    (bt_loop mem dbg fuel s).1.length ≤ fuel := by
  intro fuel
  induction fuel with
  | zero => intro s; simp [bt_loop]
  | succ f ih =>
    intro s
    by_cases hz : s.stack_base_p = 0
    · simp [bt_loop, hz]
    · rw [bt_loop_succ mem dbg f s hz]
      have := ih (bt_body mem dbg s).2
      simp only [List.length_cons]
      omega

/-! ## The frame walk -/

/-- C1: when the saved-frame-base chain from the initial frame base is
`B0 -> B1 -> ... -> B(N-1) -> 0` (each `Bk` non-zero, the word at `Bk` equal to
`B(k+1)`, with `B(N) = 0`), then with any fuel of at least `N` the loop of
`mon_backtrace` leaves the loop after exactly `N` iterations, the `k`-th at
frame base `Bk`; `mon_backtrace` returns 0 and the console holds, after the
header, the texts printed by those `N` iterations in order, each beginning
with the line `  rbp <Bk>  rip <return address>`; when the initial frame base
is 0 the console holds the header only. -/
theorem mon_backtrace_chain (env : BtEnv) (k : Kern) (Bs : List Nat) (fuel : Nat)
    (hstart : env.read_rbp = Bs.getD 0 0)
    (hnz : ∀ i, i < Bs.length → Bs.getD i 0 ≠ 0)
    (hlink : ∀ i, i < Bs.length → read64 k.mem (Bs.getD i 0) = Bs.getD (i + 1) 0)
    (hfuel : Bs.length ≤ fuel) :
    ∃ tr, bt_loop k.mem env.debuginfo_rip fuel (bt_init env) = (tr, true)
      ∧ tr.map BtState.stack_base_p = Bs
      ∧ tr.length = Bs.length
      ∧ mon_backtrace fuel env k
          = some (0, { mem := k.mem,
                       out := k.out ++ "Stack backtrace:\n".toList
                                ++ (tr.map (fun s =>
                                      (bt_body k.mem env.debuginfo_rip s).1)).flatten })
      ∧ (∀ s ∈ tr,
          (bt_body k.mem env.debuginfo_rip s).1
            = "  rbp ".toList ++ hex16 s.stack_base_p ++ "  rip ".toList
                ++ hex16 s.ret_inst_p ++ "\n".toList
                ++ (if (env.debuginfo_rip s.ret_inst_p s.rip_debug_info).1 = 0
                    then bt_line2 k.mem s.stack_base_p s.ret_inst_p
                           (env.debuginfo_rip s.ret_inst_p s.rip_debug_info).2
                    else []))
      ∧ (env.read_rbp = 0 →
          mon_backtrace fuel env k
            = some (0, { mem := k.mem, out := k.out ++ "Stack backtrace:\n".toList })) := by
  obtain ⟨tr, htr, hmap⟩ :=
    bt_loop_chain k.mem env.debuginfo_rip Bs (bt_init env) fuel hstart hnz hlink hfuel
  have hmon : mon_backtrace fuel env k
      = some (0, { mem := k.mem,
                   out := k.out ++ "Stack backtrace:\n".toList
                            ++ (tr.map (fun s =>
                                  (bt_body k.mem env.debuginfo_rip s).1)).flatten }) := by
    simp [mon_backtrace, cprintf, htr, bt_text]
  refine ⟨tr, htr, hmap, ?_, hmon, fun s _ => bt_body_text k.mem env.debuginfo_rip s, ?_⟩
  · rw [← hmap, List.length_map]
  · intro h0
    have hz := bt_loop_zero k.mem env.debuginfo_rip fuel (bt_init env) h0
    rw [htr] at hz
    have htr0 : tr = [] := by simpa using hz
    rw [hmon, htr0]
    simp

/-- Witness of C1 on the two-frame stack `demo_mem`: the chain is
`0x1000 -> 0x2000 -> 0`, and the console holds the header and the text of two
frames, at `0x1000` and at `0x2000`. -/
theorem mon_backtrace_chain_witness :
    (read64 demo_mem 0x1000 = 0x2000 ∧ read64 demo_mem 0x2000 = 0) ∧
    (mon_backtrace 2 demo_env ⟨demo_mem, []⟩).map (fun x => (x.1, x.2.out))
      = some (0, ("Stack backtrace:\n"
          ++ "  rbp 0000000000001000  rip 0000000000001234\n"
          ++ "       a.c:10: foo+0000000000000034  args:1  00000000deadbeef\n"
          ++ "  rbp 0000000000002000  rip 0000000000005678\n").toList) ∧
    ∃ tr, bt_loop demo_mem demo_resolver 2 (bt_init demo_env) = (tr, true)
      ∧ tr.map BtState.stack_base_p = [0x1000, 0x2000]
      ∧ tr.length = 2
      ∧ mon_backtrace 2 demo_env ⟨demo_mem, []⟩
          = some (0, { mem := demo_mem,
                       out := [] ++ "Stack backtrace:\n".toList
                                ++ (tr.map (fun s =>
                                      (bt_body demo_mem demo_resolver s).1)).flatten })
      ∧ (∀ s ∈ tr,
          (bt_body demo_mem demo_resolver s).1
            = "  rbp ".toList ++ hex16 s.stack_base_p ++ "  rip ".toList
                ++ hex16 s.ret_inst_p ++ "\n".toList
                ++ (if (demo_resolver s.ret_inst_p s.rip_debug_info).1 = 0
                    then bt_line2 demo_mem s.stack_base_p s.ret_inst_p
                           (demo_resolver s.ret_inst_p s.rip_debug_info).2
                    else []))
      ∧ (demo_env.read_rbp = 0 →
          mon_backtrace 2 demo_env ⟨demo_mem, []⟩
            = some (0, { mem := demo_mem, out := [] ++ "Stack backtrace:\n".toList })) :=
  ⟨by decide, by decide,
    mon_backtrace_chain demo_env ⟨demo_mem, []⟩ [0x1000, 0x2000] 2
      (by decide) (by decide) (by decide) (by decide)⟩

/-- C2: in every walk (every run of the loop, finished or not) the first frame
emitted holds the initial value of the frame-base register and the return
address stored by `read_rip` before the loop, whatever the memory holds; and a
frame with frame base `b` that is followed by another one is followed by the
frame whose return address is the word at `b + 8` and whose frame base is the
word at `b`. -/
theorem bt_loop_frames (mem : Mem) (env : BtEnv) (fuel : Nat) :
    (env.read_rbp ≠ 0 → 0 < fuel →
      ∃ a, (bt_loop mem env.debuginfo_rip fuel (bt_init env)).1[0]? = some a)
    ∧ (∀ a, (bt_loop mem env.debuginfo_rip fuel (bt_init env)).1[0]? = some a →
        a.stack_base_p = env.read_rbp ∧ a.ret_inst_p = env.read_rip)
    ∧ (∀ i a b,
        (bt_loop mem env.debuginfo_rip fuel (bt_init env)).1[i]? = some a →
        (bt_loop mem env.debuginfo_rip fuel (bt_init env)).1[i + 1]? = some b →
        b.ret_inst_p = read64 mem (a.stack_base_p + 8)
          ∧ b.stack_base_p = read64 mem a.stack_base_p) := by
  refine ⟨?_, ?_, ?_⟩
  · intro hnz hfuel
    obtain ⟨f, rfl⟩ : ∃ f, fuel = f + 1 := ⟨fuel - 1, by omega⟩
    refine ⟨bt_init env, ?_⟩
    rw [bt_loop_succ mem env.debuginfo_rip f (bt_init env) hnz]
    simp
  · intro a ha
    rw [bt_loop_head mem env.debuginfo_rip fuel (bt_init env) a ha]
    exact ⟨rfl, rfl⟩
  · intro i a b ha hb
    rw [bt_loop_link mem env.debuginfo_rip fuel (bt_init env) i a b ha hb]
    exact ⟨(bt_body_next mem env.debuginfo_rip a).2, (bt_body_next mem env.debuginfo_rip a).1⟩

/-- Witness of C2: the first two frames of the walk of `demo_env`. -/
theorem bt_loop_frames_witness :
    ∃ a b, (bt_loop demo_mem demo_env.debuginfo_rip 2 (bt_init demo_env)).1[0]? = some a
      ∧ (bt_loop demo_mem demo_env.debuginfo_rip 2 (bt_init demo_env)).1[1]? = some b
      ∧ (a.stack_base_p = demo_env.read_rbp ∧ a.ret_inst_p = demo_env.read_rip)
      ∧ (b.ret_inst_p = read64 demo_mem (a.stack_base_p + 8)
          ∧ b.stack_base_p = read64 demo_mem a.stack_base_p) :=
  ⟨_, _, rfl, rfl,
    (bt_loop_frames demo_mem demo_env 2).2.1 _ rfl,
    (bt_loop_frames demo_mem demo_env 2).2.2 0 _ _ rfl rfl⟩

/-! ## The argument loop -/

/-- C3: for every frame base `F` and argument sizes `sizes 0, ..., sizes (n-1)`
the argument loop performs, in order, the reads of the Argument Extractor:
argument `i` is read at the cursor `c(i+1)`, where `c(0) = F` and
`c(i+1) = c(i) - s` (a 4-byte read, below `2 ^ 32`) when `s = sizes i` is 4 and
`c(i+1) = floor8 (c(i) - s)` (an 8-byte read) otherwise, the rounded address
being the next cursor. For sizes 4, 8, 4: 4 bytes at `F - 4`, 8 bytes at
`A = floor8 (F - 4 - 8)`, 4 bytes at `A - 4` (subtractions on 64-bit addresses;
exact when `20 <= F < 2 ^ 64`). -/
theorem bt_args_reads (mem : Mem) (sizes : Nat → Int) (F n : Nat) :
    bt_args mem sizes n 0 F = (List.range n).map (spec_arg mem sizes F)
    ∧ (∀ i, i < n → sizes i = 4 →
        (bt_args mem sizes n 0 F)[i]?
          = some ⟨sub64i (spec_cursor sizes F i) 4, 4,
                  read32 mem (sub64i (spec_cursor sizes F i) 4)⟩
        ∧ spec_cursor sizes F (i + 1) = sub64i (spec_cursor sizes F i) 4
        ∧ read32 mem (sub64i (spec_cursor sizes F i) 4) < 2 ^ 32)
    ∧ (∀ i, i < n → sizes i ≠ 4 →
        (bt_args mem sizes n 0 F)[i]?
          = some ⟨floor8 (sub64i (spec_cursor sizes F i) (sizes i)), 8,
                  read64 mem (floor8 (sub64i (spec_cursor sizes F i) (sizes i)))⟩
        ∧ spec_cursor sizes F (i + 1) = floor8 (sub64i (spec_cursor sizes F i) (sizes i)))
    ∧ (sizes 0 = 4 → sizes 1 = 8 → sizes 2 = 4 →
        bt_args mem sizes 3 0 F =
          [⟨sub64i F 4, 4, read32 mem (sub64i F 4)⟩,
           ⟨floor8 (sub64i (sub64i F 4) 8), 8, read64 mem (floor8 (sub64i (sub64i F 4) 8))⟩,
           ⟨sub64i (floor8 (sub64i (sub64i F 4) 8)) 4, 4,
             read32 mem (sub64i (floor8 (sub64i (sub64i F 4) 8)) 4)⟩]
        ∧ (20 ≤ F → F < 2 ^ 64 →
            sub64i F 4 = F - 4
            ∧ floor8 (sub64i (sub64i F 4) 8) = floor8 (F - 4 - 8)
            ∧ sub64i (floor8 (sub64i (sub64i F 4) 8)) 4 = floor8 (F - 4 - 8) - 4)) := by
  have hall := bt_args_eq mem sizes F n
  refine ⟨hall, ?_, ?_, ?_⟩
  · intro i hi h4
    refine ⟨?_, ?_, read32_lt _ _⟩
    · rw [hall]
      simp [List.getElem?_map, List.getElem?_range hi, spec_arg, spec_cursor, h4]
    · simp [spec_cursor, h4]
  · intro i hi h4
    refine ⟨?_, ?_⟩
    · rw [hall]
      simp [List.getElem?_map, List.getElem?_range hi, spec_arg, spec_cursor, h4]
    · simp [spec_cursor, h4]
  · intro h0 h1 h2
    refine ⟨?_, ?_⟩
    · simp [bt_args, h0, h1, h2, floor8_eq]
    · intro hF hlt
      have e1 : sub64i F 4 = F - 4 := by
        have := sub64i_exact F 4 (by norm_num) (by exact_mod_cast (by omega : 4 ≤ F)) hlt
        simpa using this
      have e2 : sub64i (F - 4) 8 = F - 4 - 8 := by
        have := sub64i_exact (F - 4) 8 (by norm_num)
          (by exact_mod_cast (by omega : 8 ≤ F - 4)) (by omega)
        simpa using this
      have e3 : sub64i (floor8 (F - 4 - 8)) 4 = floor8 (F - 4 - 8) - 4 := by
        have hle : 4 ≤ floor8 (F - 4 - 8) := by unfold floor8; omega
        have := sub64i_exact (floor8 (F - 4 - 8)) 4 (by norm_num)
          (by exact_mod_cast hle) (by unfold floor8; omega)
        simpa using this
      rw [e1, e2, e3]
      exact ⟨rfl, rfl, rfl⟩

/-- Witness of C3: sizes 4, 8, 4 below the frame base `0x1000` of `demo_mem`. -/
theorem bt_args_reads_witness :
    bt_args demo_mem demo_sizes 3 0 0x1000
      = [⟨0xffc, 4, 0xdeadbeef⟩, ⟨0xff0, 8, 0⟩, ⟨0xfec, 4, 0⟩]
    ∧ bt_args demo_mem demo_sizes 3 0 0x1000 =
        [⟨sub64i 0x1000 4, 4, read32 demo_mem (sub64i 0x1000 4)⟩,
         ⟨floor8 (sub64i (sub64i 0x1000 4) 8), 8,
           read64 demo_mem (floor8 (sub64i (sub64i 0x1000 4) 8))⟩,
         ⟨sub64i (floor8 (sub64i (sub64i 0x1000 4) 8)) 4, 4,
           read32 demo_mem (sub64i (floor8 (sub64i (sub64i 0x1000 4) 8)) 4)⟩] :=
  ⟨by decide,
    ((bt_args_reads demo_mem demo_sizes 0x1000 3).2.2.2 (by decide) (by decide) (by decide)).1⟩

/-- C4, as worded, fails on a resolved frame of `two` (two 4-byte arguments)
whose frame base is 4: the two values are printed, in declaration order, but
the first is read at address 0 and the second above it, at `2 ^ 64 - 4`, the
cursor having wrapped around; the read addresses are not non-increasing. -/
theorem bt_args_addresses_increase :
    (wrap_resolver wrap_state.ret_inst_p wrap_state.rip_debug_info).1 = 0
    ∧ (wrap_resolver wrap_state.ret_inst_p wrap_state.rip_debug_info).2.rip_fn_narg = 2
    ∧ (bt_args demo_mem wrap_info.size_fn_arg 2 0 wrap_state.stack_base_p).map ArgRead.addr
        = [0, 2 ^ 64 - 4]
    ∧ ¬ List.Pairwise (fun a b => b ≤ a)
        ((bt_args demo_mem wrap_info.size_fn_arg 2 0 wrap_state.stack_base_p).map ArgRead.addr)
    ∧ (bt_body demo_mem wrap_resolver wrap_state).1
        = ("  rbp 0000000000000004  rip 0000000000001234\n"
            ++ "       w.c:7: two+0000000000000034  args:2"
            ++ "  0000000000000000 0000000000000000\n").toList := by
  decide

/-- C4, amended: for a frame whose return address resolves (return code 0) with
`rip_fn_narg = n`, the frame's text is its first line, the symbol fields up to
`args:n `, then exactly `n` argument fields (a space and 16 hex digits each),
the `i`-th from the left being the value reconstructed for `size_fn_arg[i]`,
then the newline: the reads are made and printed in declaration order. Their
addresses do not increase when the frame base is a 64-bit value, every size is
non-negative and no subtraction goes below 0. -/
theorem bt_body_args_order (mem : Mem) (dbg : Resolver) (s : BtState) (d : Ripdebuginfo)
    (n : Nat)
    (hres : dbg s.ret_inst_p s.rip_debug_info = (0, d))
    (hn : d.rip_fn_narg = (n : Int)) :
    (bt_body mem dbg s).1
      = "  rbp ".toList ++ hex16 s.stack_base_p ++ "  rip ".toList ++ hex16 s.ret_inst_p
          ++ "\n".toList
          ++ ("       ".toList ++ d.rip_file ++ ":".toList ++ fmt_d d.rip_line ++ ": ".toList
              ++ fmt_prec_s d.rip_fn_namelen d.rip_fn_name ++ "+".toList
              ++ hex16 (sub64 s.ret_inst_p d.rip_fn_addr)
              ++ "  args:".toList ++ fmt_d (n : Int) ++ " ".toList)
          ++ ((List.range n).map (fun i =>
                " ".toList ++ hex16 (spec_arg mem d.size_fn_arg s.stack_base_p i).value)).flatten
          ++ "\n".toList
    ∧ ((List.range n).map (fun i =>
          " ".toList ++ hex16 (spec_arg mem d.size_fn_arg s.stack_base_p i).value)).flatten.length
        = 17 * n
    ∧ (bt_args mem d.size_fn_arg n 0 s.stack_base_p).length = n
    ∧ (∀ i, i < n →
        (bt_args mem d.size_fn_arg n 0 s.stack_base_p)[i]?
          = some (spec_arg mem d.size_fn_arg s.stack_base_p i))
    ∧ (s.stack_base_p < 2 ^ 64 →
        (∀ i, i < n → 0 ≤ d.size_fn_arg i
          ∧ d.size_fn_arg i ≤ spec_cursor d.size_fn_arg s.stack_base_p i) →
        ∀ i, i < n → spec_cursor d.size_fn_arg s.stack_base_p (i + 1)
          ≤ spec_cursor d.size_fn_arg s.stack_base_p i) := by
  have hall := bt_args_eq mem d.size_fn_arg s.stack_base_p n
  have htext : bt_args_text (bt_args mem d.size_fn_arg n 0 s.stack_base_p)
      = ((List.range n).map (fun i =>
          " ".toList ++ hex16 (spec_arg mem d.size_fn_arg s.stack_base_p i).value)).flatten := by
    rw [hall]
    unfold bt_args_text
    rw [List.map_map]
    rfl
  refine ⟨?_, ?_, bt_args_length mem _ n 0 _, ?_, ?_⟩
  · rw [bt_body_resolved mem dbg s (by rw [hres]), hres]
    unfold bt_line2 bt_sym
    rw [fmt_s_pad7, hn, Int.toNat_ofNat, htext, bt_line1_eq]
    simp only [String.toList, List.append_assoc, List.cons_append, List.nil_append]
  · rw [← htext, bt_args_text_length, bt_args_length]
  · intro i hi
    rw [hall]
    simp [List.getElem?_map, List.getElem?_range hi]
  · intro hb hsz i hi
    have hc := spec_cursor_lt d.size_fn_arg s.stack_base_p hb i
    have hsub := sub64i_exact _ _ (hsz i hi).1 (hsz i hi).2 hc
    show (if d.size_fn_arg i = 4
        then sub64i (spec_cursor d.size_fn_arg s.stack_base_p i) (d.size_fn_arg i)
        else floor8 (sub64i (spec_cursor d.size_fn_arg s.stack_base_p i) (d.size_fn_arg i)))
      ≤ spec_cursor d.size_fn_arg s.stack_base_p i
    split_ifs
    · rw [hsub]; omega
    · rw [hsub]; unfold floor8; omega

/-- Witness of the amended C4: a frame of `bar` with three arguments of sizes
4, 8, 4 holding three different values; they are printed first declared first,
from the addresses `0xffc`, `0xff0`, `0xfec`, which decrease. -/
theorem bt_body_args_order_witness :
    (bt_body args_mem args_resolver args_state).1
      = ("  rbp 0000000000001000  rip 0000000000001234\n"
          ++ "       b.c:21: bar+0000000000000034  args:3"
          ++ "  00000000aaaaaaaa bbbbbbbbcccccccc 00000000dddddddd\n").toList
    ∧ bt_args args_mem args_info.size_fn_arg 3 0 args_state.stack_base_p
      = [⟨0xffc, 4, 0xaaaaaaaa⟩, ⟨0xff0, 8, 0xbbbbbbbbcccccccc⟩, ⟨0xfec, 4, 0xdddddddd⟩]
    ∧ (bt_args args_mem args_info.size_fn_arg 3 0 args_state.stack_base_p).length = 3
    ∧ (∀ i, i < 3 →
        (bt_args args_mem args_info.size_fn_arg 3 0 args_state.stack_base_p)[i]?
          = some (spec_arg args_mem args_info.size_fn_arg args_state.stack_base_p i))
    ∧ (∀ i, i < 3 → spec_cursor args_info.size_fn_arg args_state.stack_base_p (i + 1)
          ≤ spec_cursor args_info.size_fn_arg args_state.stack_base_p i) :=
  ⟨by decide, by decide,
    (bt_body_args_order args_mem args_resolver args_state args_info 3 rfl rfl).2.2.1,
    (bt_body_args_order args_mem args_resolver args_state args_info 3 rfl rfl).2.2.2.1,
    (bt_body_args_order args_mem args_resolver args_state args_info 3 rfl rfl).2.2.2.2
      (by decide) (by decide)⟩

/-- C5: an argument size other than 4 (0, 1, 2, 16, ... as well as 8) takes the
8-byte path without any error: the cursor is decreased by the size and rounded
down to a multiple of 8, the 8-byte word there is read and printed as one
argument field, the remaining arguments continue from the rounded cursor, and
the walk moves on to the caller's frame as for any frame. -/
theorem bt_args_other_size (mem : Mem) (sizes : Nat → Int) (n i a : Nat)
    (h : sizes i ≠ 4) :
    bt_args mem sizes (n + 1) i a
      = ⟨floor8 (sub64i a (sizes i)), 8, read64 mem (floor8 (sub64i a (sizes i)))⟩
          :: bt_args mem sizes n (i + 1) (floor8 (sub64i a (sizes i)))
    ∧ bt_args_text (bt_args mem sizes (n + 1) i a)
      = ' ' :: hex16 (read64 mem (floor8 (sub64i a (sizes i))))
          ++ bt_args_text (bt_args mem sizes n (i + 1) (floor8 (sub64i a (sizes i))))
    ∧ floor8 (sub64i a (sizes i)) % 8 = 0
    ∧ (bt_args mem sizes (n + 1) i a).length = n + 1
    ∧ (∀ (dbg : Resolver) (s : BtState),
        (bt_body mem dbg s).2.stack_base_p = read64 mem s.stack_base_p
          ∧ (bt_body mem dbg s).2.ret_inst_p = read64 mem (s.stack_base_p + 8)) := by
  have h1 : bt_args mem sizes (n + 1) i a
      = ⟨floor8 (sub64i a (sizes i)), 8, read64 mem (floor8 (sub64i a (sizes i)))⟩
          :: bt_args mem sizes n (i + 1) (floor8 (sub64i a (sizes i))) := by
    simp [bt_args, h, floor8_eq]
  refine ⟨h1, ?_, ?_, bt_args_length mem sizes _ _ _, fun dbg s => bt_body_next mem dbg s⟩
  · rw [h1]
    simp [bt_args_text]
  · unfold floor8
    omega

/-- Witness of C5: the sizes 0, 1, 2 and 16. -/
theorem bt_args_other_size_witness :
    (bt_args demo_mem odd_sizes 4 0 0x1010).map (fun r => (r.addr, r.width))
      = [(0x1010, 8), (0x1008, 8), (0x1000, 8), (0xff0, 8)]
    ∧ bt_args demo_mem odd_sizes 1 3 0x1000
      = ⟨floor8 (sub64i 0x1000 (odd_sizes 3)), 8,
          read64 demo_mem (floor8 (sub64i 0x1000 (odd_sizes 3)))⟩
          :: bt_args demo_mem odd_sizes 0 4 (floor8 (sub64i 0x1000 (odd_sizes 3))) :=
  ⟨by decide, (bt_args_other_size demo_mem odd_sizes 0 3 0x1000 (by decide)).1⟩

/-! ## The printed lines -/

theorem newlines_body (mem : Mem) (dbg : Resolver) (s : BtState)
    (hnames : (dbg s.ret_inst_p s.rip_debug_info).1 = 0 →
      '\n' ∉ (dbg s.ret_inst_p s.rip_debug_info).2.rip_file
        ∧ '\n' ∉ fmt_prec_s (dbg s.ret_inst_p s.rip_debug_info).2.rip_fn_namelen
            (dbg s.ret_inst_p s.rip_debug_info).2.rip_fn_name) :
    newlines (bt_body mem dbg s).1
      = if (dbg s.ret_inst_p s.rip_debug_info).1 = 0 then 2 else 1 := by
  by_cases h : (dbg s.ret_inst_p s.rip_debug_info).1 = 0
  · rw [bt_body_resolved mem dbg s h, if_pos h, newlines_append, newlines_line1,
      newlines_line2 mem _ _ _ (hnames h).1 (hnames h).2]
  · rw [bt_body_unresolved mem dbg s h, if_neg h, newlines_line1]

theorem newlines_text (mem : Mem) (dbg : Resolver) : ∀ tr : List BtState,
    (∀ s ∈ tr, (dbg s.ret_inst_p s.rip_debug_info).1 = 0 →
      '\n' ∉ (dbg s.ret_inst_p s.rip_debug_info).2.rip_file
        ∧ '\n' ∉ fmt_prec_s (dbg s.ret_inst_p s.rip_debug_info).2.rip_fn_namelen
            (dbg s.ret_inst_p s.rip_debug_info).2.rip_fn_name) →
    newlines (bt_text mem dbg tr)
      = (tr.map (fun s =>
          if (dbg s.ret_inst_p s.rip_debug_info).1 = 0 then 2 else 1)).sum := by
  intro tr
  induction tr with
  | nil => intro _; simp [bt_text, newlines]
  | cons s tr ih =>
    intro h
    have e : bt_text mem dbg (s :: tr) = (bt_body mem dbg s).1 ++ bt_text mem dbg tr := by
      simp [bt_text]
    rw [e, newlines_append, newlines_body mem dbg s (h s (by simp)),
      ih (fun t ht => h t (by simp [ht]))]
    simp

/-- C6: in a terminating walk whose resolved file names and function names
(the characters selected by the explicit length) contain no newline, the
output after the header is the frames' texts in frame order,
and each frame's text has exactly one line when the resolver fails on its
return address and exactly two when it succeeds. For a two-frame stack whose
first return address resolves to `foo` of `a.c`, line 10, one 4-byte argument,
and whose second does not resolve, the output is the header, a raw-address
line, a symbol line with exactly one hex argument, one raw-address line, and
nothing more; `mon_backtrace` returns 0. -/
theorem bt_lines_per_frame (env : BtEnv) (k : Kern) :
    (∀ (fuel : Nat) (tr : List BtState),
      bt_loop k.mem env.debuginfo_rip fuel (bt_init env) = (tr, true) →
      (∀ s ∈ tr, (env.debuginfo_rip s.ret_inst_p s.rip_debug_info).1 = 0 →
        '\n' ∉ (env.debuginfo_rip s.ret_inst_p s.rip_debug_info).2.rip_file
          ∧ '\n' ∉ fmt_prec_s (env.debuginfo_rip s.ret_inst_p s.rip_debug_info).2.rip_fn_namelen
              (env.debuginfo_rip s.ret_inst_p s.rip_debug_info).2.rip_fn_name) →
      mon_backtrace fuel env k
          = some (0, { mem := k.mem,
                       out := k.out ++ "Stack backtrace:\n".toList
                                ++ (tr.map (fun s => (bt_body k.mem env.debuginfo_rip s).1)).flatten })
        ∧ (∀ s ∈ tr, newlines (bt_body k.mem env.debuginfo_rip s).1
            = if (env.debuginfo_rip s.ret_inst_p s.rip_debug_info).1 = 0 then 2 else 1)
        ∧ newlines (bt_text k.mem env.debuginfo_rip tr)
            = (tr.map (fun s =>
                if (env.debuginfo_rip s.ret_inst_p s.rip_debug_info).1 = 0 then 2 else 1)).sum)
    ∧ (∀ (B1 X : Nat) (d : Ripdebuginfo) (fuel : Nat),
        env.read_rbp ≠ 0 → read64 k.mem env.read_rbp = B1 → B1 ≠ 0 → read64 k.mem B1 = 0 →
        env.debuginfo_rip env.read_rip env.rip_debug_info = (0, d) →
        d.rip_file = "a.c".toList → d.rip_line = 10 →
        fmt_prec_s d.rip_fn_namelen d.rip_fn_name = "foo".toList →
        d.rip_fn_addr = X → d.rip_fn_narg = 1 → d.size_fn_arg 0 = 4 →
        (env.debuginfo_rip (read64 k.mem (env.read_rbp + 8)) d).1 ≠ 0 →
        2 ≤ fuel →
        mon_backtrace fuel env k
          = some (0, { mem := k.mem,
                       out := k.out ++ "Stack backtrace:\n".toList
                        ++ ("  rbp ".toList ++ hex16 env.read_rbp
                            ++ "  rip ".toList ++ hex16 env.read_rip ++ "\n".toList)
                        ++ ("       a.c:10: foo+".toList ++ hex16 (sub64 env.read_rip X)
                            ++ "  args:1  ".toList
                            ++ hex16 (read32 k.mem (sub64i env.read_rbp 4)) ++ "\n".toList)
                        ++ ("  rbp ".toList ++ hex16 B1
                            ++ "  rip ".toList ++ hex16 (read64 k.mem (env.read_rbp + 8))
                            ++ "\n".toList) })) := by
  refine ⟨?_, ?_⟩
  · intro fuel tr htr hnames
    refine ⟨?_, fun s hs => newlines_body k.mem env.debuginfo_rip s (hnames s hs),
      newlines_text k.mem env.debuginfo_rip tr hnames⟩
    simp [mon_backtrace, cprintf, htr, bt_text]
  · intro B1 X d fuel hB0 hB1 hB1nz hend hres hfile hline hname haddr hnarg hsize hfail hfuel
    obtain ⟨f, rfl⟩ : ∃ f, fuel = f + 2 := ⟨fuel - 2, by omega⟩
    have hs1 : (bt_body k.mem env.debuginfo_rip (bt_init env)).2
        = { stack_base_p := B1, ret_inst_p := read64 k.mem (env.read_rbp + 8),
            rip_debug_info := d } := by
      simp [bt_body, bt_init, hres, hB1]
    have hloop : bt_loop k.mem env.debuginfo_rip (f + 2) (bt_init env)
        = ([bt_init env,
            { stack_base_p := B1, ret_inst_p := read64 k.mem (env.read_rbp + 8),
              rip_debug_info := d }], true) := by
      rw [bt_loop_succ _ _ _ _ (show (bt_init env).stack_base_p ≠ 0 from hB0), hs1,
        bt_loop_succ _ _ _ _ (show (BtState.mk B1 _ d).stack_base_p ≠ 0 from hB1nz),
        bt_loop_zero _ _ _ _ (by simp [bt_body, hend])]
    have h0 : (bt_body k.mem env.debuginfo_rip (bt_init env)).1
        = bt_line1 env.read_rbp env.read_rip ++ bt_line2 k.mem env.read_rbp env.read_rip d := by
      rw [bt_body_resolved _ _ _ (by simp [bt_init, hres])]
      simp [bt_init, hres]
    have h1 : (bt_body k.mem env.debuginfo_rip
        { stack_base_p := B1, ret_inst_p := read64 k.mem (env.read_rbp + 8),
          rip_debug_info := d }).1 = bt_line1 B1 (read64 k.mem (env.read_rbp + 8)) :=
      bt_body_unresolved _ _ _ hfail
    have hargs : bt_args k.mem d.size_fn_arg d.rip_fn_narg.toNat 0 env.read_rbp
        = [⟨sub64i env.read_rbp 4, 4, read32 k.mem (sub64i env.read_rbp 4)⟩] := by
      rw [hnarg]
      simp [bt_args, hsize]
    have hd10 : fmt_d 10 = "10".toList := by decide
    have hd1 : fmt_d 1 = "1".toList := by decide
    have hl2 : bt_line2 k.mem env.read_rbp env.read_rip d
        = "       a.c:10: foo+".toList ++ hex16 (sub64 env.read_rip X) ++ "  args:1  ".toList
            ++ hex16 (read32 k.mem (sub64i env.read_rbp 4)) ++ "\n".toList := by
      unfold bt_line2 bt_sym
      rw [hargs, hfile, hline, hname, haddr, hnarg, hd10, hd1, fmt_s_pad7]
      simp only [bt_args_text, List.map_cons, List.map_nil, List.flatten_cons,
        List.flatten_nil, String.toList, List.append_assoc, List.cons_append,
        List.nil_append, List.append_nil]
    simp only [mon_backtrace, cprintf, hloop, if_true, bt_text, List.map_cons, List.map_nil,
      List.flatten_cons, List.flatten_nil, h0, h1, hl2, bt_line1_eq,
      String.toList, List.append_assoc, List.cons_append, List.nil_append, List.append_nil]

/-- Witness of C6: the walk of `demo_env` on `demo_mem`, which has this shape;
its three lines after the header are two for the first frame and one for the
second. -/
theorem bt_lines_per_frame_witness :
    mon_backtrace 2 demo_env ⟨demo_mem, []⟩
      = some (0, { mem := demo_mem,
                   out := [] ++ "Stack backtrace:\n".toList
                    ++ ("  rbp ".toList ++ hex16 demo_env.read_rbp
                        ++ "  rip ".toList ++ hex16 demo_env.read_rip ++ "\n".toList)
                    ++ ("       a.c:10: foo+".toList ++ hex16 (sub64 demo_env.read_rip 0x1200)
                        ++ "  args:1  ".toList
                        ++ hex16 (read32 demo_mem (sub64i demo_env.read_rbp 4)) ++ "\n".toList)
                    ++ ("  rbp ".toList ++ hex16 0x2000
                        ++ "  rip ".toList ++ hex16 (read64 demo_mem (demo_env.read_rbp + 8))
                        ++ "\n".toList) })
    ∧ newlines (bt_text demo_mem demo_resolver
        (bt_loop demo_mem demo_resolver 2 (bt_init demo_env)).1)
      = ((bt_loop demo_mem demo_resolver 2 (bt_init demo_env)).1.map (fun s =>
          if (demo_resolver s.ret_inst_p s.rip_debug_info).1 = 0 then 2 else 1)).sum :=
  ⟨(bt_lines_per_frame demo_env ⟨demo_mem, []⟩).2 0x2000 0x1200 demo_foo 2
      (by decide) (by decide) (by decide) (by decide) rfl rfl rfl (by decide) rfl rfl rfl
      (by decide) (by decide),
    ((bt_lines_per_frame demo_env ⟨demo_mem, []⟩).1 2
      (bt_loop demo_mem demo_resolver 2 (bt_init demo_env)).1 rfl
      (fun s _ h => by
        have hd : demo_env.debuginfo_rip = demo_resolver := rfl
        rw [hd] at h ⊢
        unfold demo_resolver at h ⊢
        split_ifs at h ⊢ with hr
        · exact ⟨by decide, by decide⟩
        · exact absurd (show (-1 : Int) = 0 from h) (by decide))).2.2⟩

theorem hexdigit_lower : ∀ d, d < 16 → Nat.digitChar d ∈ "0123456789abcdef".toList := by
  decide

theorem hex16_chars (x : Nat) : ∀ c ∈ hex16 x, c ∈ "0123456789abcdef".toList := by
  intro c hc
  unfold hex16 at hc
  obtain ⟨i, _, rfl⟩ := List.mem_map.mp hc
  exact hexdigit_lower _ (Nat.mod_lt _ (by norm_num))

/-- C7: for a frame whose return address `r` resolves to a function starting
at `a <= r` (`r` a 64-bit value), the 64-bit subtraction of line 79 does not
wrap: the offset field, printed right after the `+`, is the 16 hex digits of
the exact difference `r - a`, and it denotes that number. -/
theorem bt_offset_exact (mem : Mem) (dbg : Resolver) (s : BtState) (d : Ripdebuginfo)
    (hres : dbg s.ret_inst_p s.rip_debug_info = (0, d))
    (hle : d.rip_fn_addr ≤ s.ret_inst_p)
    (hr : s.ret_inst_p < 2 ^ 64) :
    sub64 s.ret_inst_p d.rip_fn_addr = s.ret_inst_p - d.rip_fn_addr
    ∧ (bt_body mem dbg s).1
      = bt_line1 s.stack_base_p s.ret_inst_p
        ++ (fmt_s 7 " ".toList ++ d.rip_file ++ ":".toList ++ fmt_d d.rip_line ++ ": ".toList
              ++ fmt_prec_s d.rip_fn_namelen d.rip_fn_name ++ "+".toList)
        ++ hex16 (s.ret_inst_p - d.rip_fn_addr)
        ++ ("  args:".toList ++ fmt_d d.rip_fn_narg ++ " ".toList
              ++ bt_args_text (bt_args mem d.size_fn_arg d.rip_fn_narg.toNat 0 s.stack_base_p)
              ++ "\n".toList)
    ∧ (hex16 (s.ret_inst_p - d.rip_fn_addr)).length = 16
    ∧ hexval (hex16 (s.ret_inst_p - d.rip_fn_addr)) = s.ret_inst_p - d.rip_fn_addr := by
  have hsub := sub64_exact s.ret_inst_p d.rip_fn_addr hle hr
  refine ⟨hsub, ?_, hex16_length _, ?_⟩
  · rw [bt_body_resolved mem dbg s (by rw [hres]), hres]
    simp only [bt_line2, bt_sym, hsub, List.append_assoc]
  · rw [hexval_hex16]
    exact Nat.mod_eq_of_lt (by omega)

/-- Witness of C7: the first frame of `demo_env`, at offset `0x34` in `foo`. -/
theorem bt_offset_exact_witness :
    sub64 demo_state.ret_inst_p demo_foo.rip_fn_addr = 0x34
    ∧ hexval (hex16 (demo_state.ret_inst_p - demo_foo.rip_fn_addr))
        = demo_state.ret_inst_p - demo_foo.rip_fn_addr :=
  ⟨(bt_offset_exact demo_mem demo_resolver demo_state demo_foo rfl (by decide) (by decide)).1,
    (bt_offset_exact demo_mem demo_resolver demo_state demo_foo rfl (by decide)
      (by decide)).2.2.2⟩

/-- C8: the text of every frame, with frame base `b` and return address `r`,
begins with the line: two spaces, `rbp`, a space, 16 lowercase hex digits
denoting `b` as a 64-bit value, two spaces, `rip`, a space, 16 lowercase hex
digits denoting `r`, newline; what follows is the symbol line when the
resolver returned 0 and nothing otherwise. -/
theorem bt_first_line (mem : Mem) (dbg : Resolver) (s : BtState) :
    (bt_body mem dbg s).1
      = "  rbp ".toList ++ hex16 s.stack_base_p ++ "  rip ".toList ++ hex16 s.ret_inst_p
          ++ "\n".toList
          ++ (if (dbg s.ret_inst_p s.rip_debug_info).1 = 0
              then bt_line2 mem s.stack_base_p s.ret_inst_p (dbg s.ret_inst_p s.rip_debug_info).2
              else [])
    ∧ '\n' ∉ "  rbp ".toList ++ hex16 s.stack_base_p ++ "  rip ".toList ++ hex16 s.ret_inst_p
    ∧ (hex16 s.stack_base_p).length = 16 ∧ (hex16 s.ret_inst_p).length = 16
    ∧ hexval (hex16 s.stack_base_p) = s.stack_base_p % 2 ^ 64
    ∧ hexval (hex16 s.ret_inst_p) = s.ret_inst_p % 2 ^ 64
    ∧ (∀ c ∈ hex16 s.stack_base_p ++ hex16 s.ret_inst_p, c ∈ "0123456789abcdef".toList) := by
  refine ⟨?_, ?_, hex16_length _, hex16_length _, hexval_hex16 _, hexval_hex16 _, ?_⟩
  · by_cases h : (dbg s.ret_inst_p s.rip_debug_info).1 = 0
    · rw [bt_body_resolved mem dbg s h, if_pos h, bt_line1_eq]
      simp only [List.append_assoc]
    · rw [bt_body_unresolved mem dbg s h, if_neg h, bt_line1_eq]
      simp only [List.append_assoc, List.append_nil]
  · have hb := hex16_no_newline s.stack_base_p
    have hr := hex16_no_newline s.ret_inst_p
    simp only [List.mem_append, not_or]
    exact ⟨⟨⟨by decide, hb⟩, by decide⟩, hr⟩
  · intro c hc
    rcases List.mem_append.mp hc with h | h
    · exact hex16_chars _ c h
    · exact hex16_chars _ c h

/-- C9, as worded, fails on the first frame of `demo_env`: the frame's text is
not its first line followed by the line "file, `:`, ..., one space, values
separated by spaces, newline"; the symbol line printed starts with seven
spaces and has two spaces before the argument value. -/
theorem bt_second_line_not_as_worded :
    (bt_body demo_mem demo_resolver demo_state).1
        ≠ bt_line1 0x1000 0x1234 ++ worded_line2 demo_foo 0x1234 [0xdeadbeef]
    ∧ (bt_body demo_mem demo_resolver demo_state).1
        = ("  rbp 0000000000001000  rip 0000000000001234\n"
            ++ "       a.c:10: foo+0000000000000034  args:1  00000000deadbeef\n").toList
    ∧ bt_line1 0x1000 0x1234 ++ worded_line2 demo_foo 0x1234 [0xdeadbeef]
        = ("  rbp 0000000000001000  rip 0000000000001234\n"
            ++ "a.c:10: foo+0000000000000034  args:1 00000000deadbeef\n").toList
    ∧ (bt_args demo_mem demo_foo.size_fn_arg 1 0 0x1000).map ArgRead.value = [0xdeadbeef] := by
  decide

/-- C9, amended: for a frame whose return address resolves, with a name length
that is not negative and `rip_fn_narg = n`, the second line is: seven spaces,
the file name, `:`, the line number in decimal, `: `, the first
`rip_fn_namelen` characters of the function name and no more, `+`, the offset
as 16 hex digits, two spaces, `args:`, the count in decimal, one space, then
for each of the `n` argument values one space and its 16 hex digits, then a
newline. -/
theorem bt_second_line (mem : Mem) (dbg : Resolver) (s : BtState) (d : Ripdebuginfo)
    (n : Nat)
    (hres : dbg s.ret_inst_p s.rip_debug_info = (0, d))
    (hlen : 0 ≤ d.rip_fn_namelen)
    (hn : d.rip_fn_narg = (n : Int)) :
    (bt_body mem dbg s).1
      = bt_line1 s.stack_base_p s.ret_inst_p
        ++ ("       ".toList ++ d.rip_file ++ ":".toList ++ fmt_d d.rip_line ++ ": ".toList
            ++ d.rip_fn_name.take d.rip_fn_namelen.toNat ++ "+".toList
            ++ hex16 (sub64 s.ret_inst_p d.rip_fn_addr)
            ++ "  args:".toList ++ fmt_d d.rip_fn_narg ++ " ".toList
            ++ ((bt_args mem d.size_fn_arg n 0 s.stack_base_p).map
                  (fun a => " ".toList ++ hex16 a.value)).flatten
            ++ "\n".toList)
    ∧ (bt_args mem d.size_fn_arg n 0 s.stack_base_p).length = n
    ∧ (d.rip_fn_name.take d.rip_fn_namelen.toNat).length ≤ d.rip_fn_namelen.toNat
    ∧ (hex16 (sub64 s.ret_inst_p d.rip_fn_addr)).length = 16
    ∧ (∀ a ∈ bt_args mem d.size_fn_arg n 0 s.stack_base_p, (hex16 a.value).length = 16) := by
  refine ⟨?_, bt_args_length mem _ n 0 _, ?_, hex16_length _, fun a _ => hex16_length _⟩
  · rw [bt_body_resolved mem dbg s (by rw [hres]), hres]
    have hp : fmt_prec_s d.rip_fn_namelen d.rip_fn_name
        = d.rip_fn_name.take d.rip_fn_namelen.toNat := by
      unfold fmt_prec_s
      rw [if_neg (by omega)]
    unfold bt_line2 bt_sym
    rw [fmt_s_pad7, hp, hn]
    simp only [bt_args_text, Int.toNat_ofNat,
      String.toList, List.append_assoc, List.cons_append, List.nil_append]
  · rw [List.length_take]
    exact Nat.min_le_left _ _

/-- Witness of the amended C9: the first frame of `demo_env`. -/
theorem bt_second_line_witness :
    (bt_body demo_mem demo_resolver demo_state).1
      = bt_line1 demo_state.stack_base_p demo_state.ret_inst_p
        ++ ("       ".toList ++ demo_foo.rip_file ++ ":".toList ++ fmt_d demo_foo.rip_line
            ++ ": ".toList
            ++ demo_foo.rip_fn_name.take demo_foo.rip_fn_namelen.toNat ++ "+".toList
            ++ hex16 (sub64 demo_state.ret_inst_p demo_foo.rip_fn_addr)
            ++ "  args:".toList ++ fmt_d demo_foo.rip_fn_narg ++ " ".toList
            ++ ((bt_args demo_mem demo_foo.size_fn_arg 1 0 demo_state.stack_base_p).map
                  (fun a => " ".toList ++ hex16 a.value)).flatten
            ++ "\n".toList) :=
  (bt_second_line demo_mem demo_resolver demo_state demo_foo 1 rfl (by decide) rfl).1

/-! ## Termination of the walk -/

theorem bt_loop_length_le (mem : Mem) (dbg : Resolver) : ∀ (fuel : Nat) (s : BtState) (n : Nat),
    (read64 mem)^[n] s.stack_base_p = 0 → (bt_loop mem dbg fuel s).1.length ≤ n := by
  intro fuel
  induction fuel with
  | zero => intro s n _; simp [bt_loop]
  | succ f ih =>
    intro s n h
    by_cases hz : s.stack_base_p = 0
    · simp [bt_loop, hz]
    · rw [bt_loop_succ mem dbg f s hz]
      cases n with
      | zero => exact absurd (by simpa using h) hz
      | succ n =>
        have := ih (bt_body mem dbg s).2 n
          (by rw [(bt_body_next mem dbg s).1]; simpa [Function.iterate_succ_apply] using h)
        simp only [List.length_cons]
        omega

theorem cyclic_never_done : ∀ (fuel : Nat) (s : BtState), s.stack_base_p = 0x1000 →
    (bt_loop cyclic_mem demo_resolver fuel s).2 = false
      ∧ (bt_loop cyclic_mem demo_resolver fuel s).1.length = fuel := by
  intro fuel
  induction fuel with
  | zero => intro s h; simp [bt_loop, h]
  | succ f ih =>
    intro s h
    have hz : s.stack_base_p ≠ 0 := by rw [h]; decide
    have hnext : (bt_body cyclic_mem demo_resolver s).2.stack_base_p = 0x1000 := by
      rw [(bt_body_next cyclic_mem demo_resolver s).1, h]
      decide
    rw [bt_loop_succ cyclic_mem demo_resolver f s hz]
    exact ⟨(ih _ hnext).1, by simp [(ih _ hnext).2]⟩

/-- C10, as worded, fails on `cyclic_mem`, where the frame at `0x1000` saves its
own address: no amount of fuel lets the loop leave, and every iteration emits
one more frame. -/
theorem bt_loop_cyclic_diverges :
    ¬ ∃ fuel : Nat,
      (bt_loop cyclic_mem cyclic_env.debuginfo_rip fuel (bt_init cyclic_env)).2 = true
        ∨ (bt_loop cyclic_mem cyclic_env.debuginfo_rip fuel (bt_init cyclic_env)).1.length ≠ fuel
        ∨ (mon_backtrace fuel cyclic_env ⟨cyclic_mem, []⟩).isSome = true := by
  rintro ⟨fuel, h⟩
  have hc := cyclic_never_done fuel (bt_init cyclic_env) rfl
  have hd : (bt_loop cyclic_mem demo_resolver fuel (bt_init cyclic_env)).2 = false := hc.1
  rcases h with h | h | h
  · rw [show cyclic_env.debuginfo_rip = demo_resolver from rfl, hd] at h
    exact Bool.false_ne_true h
  · exact h hc.2
  · simp [mon_backtrace, cprintf, show cyclic_env.debuginfo_rip = demo_resolver from rfl, hd] at h

/-- C10, amended: the walk is finite exactly when following the saved frame
bases from the initial frame base reaches 0 after finitely many steps; if it
does so after `n` steps, then with any fuel of at least `n` the loop leaves
after at most `n` frames and `mon_backtrace` returns. -/
theorem bt_loop_terminates_iff (mem : Mem) (env : BtEnv) (out : Text) :
    ((∃ fuel, (bt_loop mem env.debuginfo_rip fuel (bt_init env)).2 = true)
      ↔ ∃ n, (read64 mem)^[n] env.read_rbp = 0)
    ∧ (∀ n, (read64 mem)^[n] env.read_rbp = 0 → ∀ fuel, n ≤ fuel →
        (bt_loop mem env.debuginfo_rip fuel (bt_init env)).2 = true
          ∧ (bt_loop mem env.debuginfo_rip fuel (bt_init env)).1.length ≤ n
          ∧ (mon_backtrace fuel env ⟨mem, out⟩).isSome = true) := by
  refine ⟨?_, ?_⟩
  · constructor
    · rintro ⟨fuel, h⟩
      obtain ⟨n, _, hn⟩ := (bt_loop_done_iff mem env.debuginfo_rip fuel (bt_init env)).mp h
      exact ⟨n, hn⟩
    · rintro ⟨n, hn⟩
      exact ⟨n, (bt_loop_done_iff mem env.debuginfo_rip n (bt_init env)).mpr ⟨n, le_refl n, hn⟩⟩
  · intro n hn fuel hfuel
    have hdone := (bt_loop_done_iff mem env.debuginfo_rip fuel (bt_init env)).mpr ⟨n, hfuel, hn⟩
    refine ⟨hdone, bt_loop_length_le mem env.debuginfo_rip fuel (bt_init env) n hn, ?_⟩
    simp [mon_backtrace, cprintf, hdone]

/-- Witness of the amended C10: on `demo_mem` the chain reaches 0 in two steps. -/
theorem bt_loop_terminates_iff_witness :
    (read64 demo_mem)^[2] demo_env.read_rbp = 0
    ∧ (bt_loop demo_mem demo_env.debuginfo_rip 2 (bt_init demo_env)).2 = true
    ∧ (bt_loop demo_mem demo_env.debuginfo_rip 2 (bt_init demo_env)).1.length ≤ 2
    ∧ (mon_backtrace 2 demo_env ⟨demo_mem, []⟩).isSome = true :=
  ⟨by decide, (bt_loop_terminates_iff demo_mem demo_env []).2 2 (by decide) 2 (by decide)⟩

/-! ## Alignment of the argument reads -/

theorem sub64i_four_aligned (a : Nat) (h : a % 4 = 0) : sub64i a 4 % 4 = 0 := by
  unfold sub64i
  omega

theorem floor8_aligned (a : Nat) : floor8 a % 8 = 0 := by
  unfold floor8
  omega

theorem bt_args_aligned (mem : Mem) (sizes : Nat → Int) : ∀ (n i a : Nat),
    a % 4 = 0 →
    (∀ j, i ≤ j → j < i + n → sizes j = 4 ∨ sizes j = 8) →
    ∀ r ∈ bt_args mem sizes n i a,
      (r.width = 4 ∨ r.width = 8) ∧ (r.width = 4 → r.addr % 4 = 0)
        ∧ (r.width = 8 → r.addr % 8 = 0) := by
  intro n
  induction n with
  | zero => intro i a _ _ r hr; simp [bt_args] at hr
  | succ n ih =>
    intro i a ha hs r hr
    have hrest : ∀ j, i + 1 ≤ j → j < i + 1 + n → sizes j = 4 ∨ sizes j = 8 :=
      fun j h1 h2 => hs j (by omega) (by omega)
    by_cases h4 : sizes i = 4
    · have e : bt_args mem sizes (n + 1) i a
          = ⟨sub64i a 4, 4, read32 mem (sub64i a 4)⟩
              :: bt_args mem sizes n (i + 1) (sub64i a 4) := by
        simp [bt_args, h4]
      rw [e] at hr
      rcases List.mem_cons.mp hr with rfl | hr
      · exact ⟨Or.inl rfl, fun _ => sub64i_four_aligned a ha, fun h => by simp at h⟩
      · exact ih (i + 1) _ (sub64i_four_aligned a ha) hrest r hr
    · have e : bt_args mem sizes (n + 1) i a
          = ⟨floor8 (sub64i a (sizes i)), 8, read64 mem (floor8 (sub64i a (sizes i)))⟩
              :: bt_args mem sizes n (i + 1) (floor8 (sub64i a (sizes i))) := by
        simp [bt_args, h4, floor8_eq]
      have h8 := floor8_aligned (sub64i a (sizes i))
      rw [e] at hr
      rcases List.mem_cons.mp hr with rfl | hr
      · exact ⟨Or.inr rfl, fun h => by simp at h, fun _ => h8⟩
      · exact ih (i + 1) _ (by omega) hrest r hr

theorem bt_args_wide_aligned (mem : Mem) (sizes : Nat → Int) : ∀ (n i a : Nat),
    ∀ r ∈ bt_args mem sizes n i a, r.width = 8 → r.addr % 8 = 0 := by
  intro n
  induction n with
  | zero => intro i a r hr; simp [bt_args] at hr
  | succ n ih =>
    intro i a r hr hw
    by_cases h4 : sizes i = 4
    · have e : bt_args mem sizes (n + 1) i a
          = ⟨sub64i a 4, 4, read32 mem (sub64i a 4)⟩
              :: bt_args mem sizes n (i + 1) (sub64i a 4) := by
        simp [bt_args, h4]
      rw [e] at hr
      rcases List.mem_cons.mp hr with rfl | hr
      · simp at hw
      · exact ih (i + 1) _ r hr hw
    · have e : bt_args mem sizes (n + 1) i a
          = ⟨floor8 (sub64i a (sizes i)), 8, read64 mem (floor8 (sub64i a (sizes i)))⟩
              :: bt_args mem sizes n (i + 1) (floor8 (sub64i a (sizes i))) := by
        simp [bt_args, h4, floor8_eq]
      rw [e] at hr
      rcases List.mem_cons.mp hr with rfl | hr
      · exact floor8_aligned _
      · exact ih (i + 1) _ r hr hw

/-- C13: when the frame base `F` is a multiple of 4 and the `n` argument sizes
are all 4 or 8, every read of the argument loop is naturally aligned: it is 4
or 8 bytes wide, a 4-byte read is at a multiple of 4 and an 8-byte read at a
multiple of 8 (also when the cursor wraps around, `2 ^ 64` being a multiple of
8); and for any frame base and any sizes every 8-byte read is at a multiple of
8. -/
theorem bt_args_alignment (mem : Mem) (sizes : Nat → Int) (F n : Nat) :
    (F % 4 = 0 → (∀ j, j < n → sizes j = 4 ∨ sizes j = 8) →
      ∀ r ∈ bt_args mem sizes n 0 F,
        (r.width = 4 ∨ r.width = 8) ∧ (r.width = 4 → r.addr % 4 = 0)
          ∧ (r.width = 8 → r.addr % 8 = 0))
    ∧ (∀ r ∈ bt_args mem sizes n 0 F, r.width = 8 → r.addr % 8 = 0) := by
  refine ⟨?_, bt_args_wide_aligned mem sizes n 0 F⟩
  intro hF hs
  exact bt_args_aligned mem sizes n 0 F hF (fun j _ hj => hs j (by omega))

/-- Witness of C13: sizes 4, 8, 4 below the frame base `0x1004`. -/
theorem bt_args_alignment_witness :
    (bt_args demo_mem demo_sizes 3 0 0x1004).map (fun r => (r.addr, r.width))
      = [(0x1000, 4), (0xff8, 8), (0xff4, 4)]
    ∧ ∀ r ∈ bt_args demo_mem demo_sizes 3 0 0x1004,
        (r.width = 4 ∨ r.width = 8) ∧ (r.width = 4 → r.addr % 4 = 0)
          ∧ (r.width = 8 → r.addr % 8 = 0) :=
  ⟨by decide, (bt_args_alignment demo_mem demo_sizes 0x1004 3).1 (by decide) (by decide)⟩

/-! ## Lemmas on the parsing loop of `runcmd` -/

theorem ws_ne_nul (c : Char) (h : c ∈ WHITESPACE) : c ≠ NUL := by
  rintro rfl
  exact absurd h (by decide)

theorem gobble_ws (c : Char) (cs : Text) (h : c ∈ WHITESPACE) :
    gobble (c :: cs) = gobble cs := by
  simp [gobble, strchr, h, ws_ne_nul c h]

theorem gobble_stop (c : Char) (cs : Text) (h : c = NUL ∨ c ∉ WHITESPACE) :
    gobble (c :: cs) = c :: cs := by
  rcases h with h | h
  · simp [gobble, h]
  · by_cases hn : c = NUL
    · simp [gobble, hn]
    · simp [gobble, strchr, h, hn]

theorem scan_pass (c : Char) (cs : Text) (h1 : c ≠ NUL) (h2 : c ∉ WHITESPACE) :
    scan (c :: cs) = (c :: (scan cs).1, (scan cs).2) := by
  simp [scan, strchr, h1, h2]

theorem gobble_length : ∀ buf : Text, (gobble buf).length ≤ buf.length := by
  intro buf
  induction buf with
  | nil => simp [gobble]
  | cons c cs ih =>
    unfold gobble
    split_ifs
    · simp only [List.length_cons]; omega
    · exact le_refl _

theorem gobble_head : ∀ (buf : Text) (c : Char) (cs : Text),
    gobble buf = c :: cs → c = NUL ∨ c ∉ WHITESPACE := by
  intro buf
  induction buf with
  | nil => intro c cs h; simp [gobble] at h
  | cons d ds ih =>
    intro c cs h
    by_cases hd : d ∈ WHITESPACE
    · rw [gobble_ws d ds hd] at h
      exact ih c cs h
    · rw [gobble_stop d ds (Or.inr hd)] at h
      have : d = c := (List.cons.inj h).1
      exact Or.inr (this ▸ hd)

theorem scan_length : ∀ buf : Text, (scan buf).2.length ≤ buf.length := by
  intro buf
  induction buf with
  | nil => simp [scan]
  | cons c cs ih =>
    unfold scan
    split_ifs
    · simp only [List.length_cons]; omega
    · exact le_refl _

theorem parse_args_returns : ∀ (fuel : Nat) (buf : Text) (argv : List Text),
    buf.length < fuel → parse_args fuel buf argv ≠ Parsed.out_of_fuel := by
  intro fuel
  induction fuel with
  | zero => intro buf argv h; omega
  | succ f ih =>
    intro buf argv hlen
    unfold parse_args
    cases hg : gobble buf with
    | nil => simp
    | cons c cs =>
      simp only
      split_ifs with hc h15
      · simp
      · simp
      · have hstop := gobble_head buf c cs hg
        have hc2 : c ∉ WHITESPACE := hstop.resolve_left hc
        rw [scan_pass c cs hc hc2]
        apply ih
        show (scan cs).2.length < f
        have h1 := scan_length cs
        have h2 := gobble_length buf
        rw [hg] at h2
        simp only [List.length_cons] at h2
        omega

theorem mon_backtrace_zero (fuel : Nat) (env : BtEnv) (k : Kern) (r : Int) (k2 : Kern)
    (h : mon_backtrace fuel env k = some (r, k2)) : r = 0 := by
  unfold mon_backtrace at h
  simp only at h
  split_ifs at h
  · exact (congrArg Prod.fst (Option.some.inj h)).symm

theorem call_zero (c : Handler) (fuel : Nat) (env : MonEnv) (argc : Int) (argv : List Text)
    (tf : Nat) (k : Kern) (r : Int) (k2 : Kern)
    (h : call c fuel env argc argv tf k = some (r, k2)) : r = 0 := by
  cases c with
  | mon_help => exact (congrArg Prod.fst (Option.some.inj h)).symm
  | mon_kerninfo => exact (congrArg Prod.fst (Option.some.inj h)).symm
  | mon_backtrace => exact mon_backtrace_zero fuel env.bt k r k2 h

theorem call_none (c : Handler) (fuel : Nat) (env : MonEnv) (argc : Int) (argv : List Text)
    (tf : Nat) (k : Kern)
    (h : call c fuel env argc argv tf k = none) : mon_backtrace fuel env.bt k = none := by
  cases c with
  | mon_help => simp [call] at h
  | mon_kerninfo => simp [call] at h
  | mon_backtrace => exact h

theorem lookup_invoke_zero (fuel : Nat) (env : MonEnv) (argv : List Text) (tf : Nat)
    (k : Kern) (r : Int) (k2 : Kern)
    (h : lookup_invoke fuel env argv tf k = some (r, k2)) : r = 0 := by
  unfold lookup_invoke at h
  split at h
  · exact (congrArg Prod.fst (Option.some.inj h)).symm
  · split at h
    · exact call_zero _ _ _ _ _ _ _ _ _ h
    · exact (congrArg Prod.fst (Option.some.inj h)).symm

theorem lookup_invoke_none (fuel : Nat) (env : MonEnv) (argv : List Text) (tf : Nat)
    (k : Kern) (h : lookup_invoke fuel env argv tf k = none) :
    mon_backtrace fuel env.bt k = none := by
  unfold lookup_invoke at h
  split at h
  · simp at h
  · split at h
    · exact call_none _ _ _ _ _ _ _ h
    · simp at h

theorem runcmd_zero (fuel : Nat) (env : MonEnv) (buf : Text) (tf : Nat) (k : Kern)
    (r : Int) (k2 : Kern) (h : runcmd fuel env buf tf k = some (r, k2)) : r = 0 := by
  unfold runcmd at h
  split at h
  · simp at h
  · exact (congrArg Prod.fst (Option.some.inj h)).symm
  · exact lookup_invoke_zero _ _ _ _ _ _ _ h

theorem runcmd_none (fuel : Nat) (env : MonEnv) (buf : Text) (tf : Nat) (k : Kern)
    (h : runcmd fuel env buf tf k = none) : mon_backtrace fuel env.bt k = none := by
  unfold runcmd at h
  split at h
  · rename_i hp
    exact absurd hp (parse_args_returns _ buf [] (by omega))
  · simp at h
  · exact lookup_invoke_none _ _ _ _ _ h

theorem monitor_loop_runs (fuel : Nat) (env : MonEnv) (tf : Nat) :
    ∀ (inputs : List ReadLine) (k : Kern) (b : Bool) (k2 : Kern),
    monitor_loop fuel env tf inputs k = some (b, k2) → b = false := by
  intro inputs
  induction inputs with
  | nil =>
    intro k b k2 h
    exact (congrArg Prod.fst (Option.some.inj h)).symm
  | cons rl rest ih =>
    intro k b k2 h
    unfold monitor_loop at h
    split at h
    · exact ih _ b k2 h
    · split at h
      · simp at h
      · rename_i r k3 hr
        have hz := runcmd_zero _ _ _ _ _ _ _ hr
        rw [if_neg (by omega)] at h
        exact ih _ b k2 h

/-! ## The command interpreter -/

/-- C15: `mon_help` and `mon_kerninfo` return 0, and `mon_backtrace` returns 0
whenever it returns; hence whenever `runcmd` returns, on any line, it returns
0, which is not negative, and it fails to return only when `mon_backtrace`
does; so the loop of `monitor` never takes its `break`, whatever lines
`readline` delivers. -/
theorem monitor_never_exits (fuel : Nat) (env : MonEnv) (tf : Nat) :
    (∀ k, (mon_help k).1 = 0)
    ∧ (∀ k, (mon_kerninfo env.layout k).1 = 0)
    ∧ (∀ k r k2, mon_backtrace fuel env.bt k = some (r, k2) → r = 0)
    ∧ (∀ buf k r k2, runcmd fuel env buf tf k = some (r, k2) → r = 0 ∧ ¬ r < 0)
    ∧ (∀ buf k, runcmd fuel env buf tf k = none → mon_backtrace fuel env.bt k = none)
    ∧ (∀ inputs k b k2, monitor fuel env tf inputs k = some (b, k2) → b = false) := by
  refine ⟨fun _ => rfl, fun _ => rfl, fun k r k2 h => mon_backtrace_zero fuel env.bt k r k2 h,
    ?_, fun buf k h => runcmd_none fuel env buf tf k h, ?_⟩
  · intro buf k r k2 h
    have hz := runcmd_zero fuel env buf tf k r k2 h
    exact ⟨hz, by omega⟩
  · intro inputs k b k2 h
    exact monitor_loop_runs fuel env tf inputs _ b k2 h

/-- Witness of C15: the monitor on `demo_inputs` consumes all four lines and is
still in its loop. -/
theorem monitor_never_exits_witness :
    ∃ (b : Bool) (k2 : Kern),
      monitor 2 demo_menv 0 demo_inputs ⟨demo_mem, []⟩ = some (b, k2) ∧ b = false :=
  ⟨_, _, rfl, (monitor_never_exits 2 demo_menv 0).2.2.2.2.2 demo_inputs ⟨demo_mem, []⟩ _ _ rfl⟩

end JOS
